import Mathlib

/-!
Verification development for the CryptoStrategyLab backtesting engine.

The Python sources under `code/strategies/` are shallowly embedded here:

* `code/strategies/tools.py` — the `Position` class, its long/short side
  behaviors, and `update_equity_record`;
* `code/strategies/envelope.py` — the multi-leg "envelope" strategy engine
  (`Strategy.evaluate_orders`, `Strategy.close_trade`, `Strategy.run_backtest`);
* `code/strategies/simple_sma.py` — the single-entry SMA-cross strategy engine.

Modelling conventions:

* Python floats are modelled as exact rationals (`ℚ`); `round(x, 4)` is
  modelled as rounding to the nearest multiple of `1/10000` (Python's
  half-to-even tie behaviour on binary floats never matters for the
  statements proved here).
* Timestamps are modelled as bar indices (`Nat`); the engines only ever pass
  the timestamp through to records.
* A pandas row is a structure; columns that exist only when the corresponding
  signal-population routine ran (mode-dependent columns such as
  `open_short_i`) are modelled as `Option`-valued lookups, where `none`
  corresponds to a Python `KeyError` on access.
* `sys.exit()` on liquidation, and Python runtime exceptions (missing
  column, unbound sizing variable), are modelled as `Except` errors carrying
  the state at the moment the run stops.
* Python binds a `behavior` object at `Position.open` and never clears it;
  `Position.close` clears only `side`.  The embedding carries `behavior` as a
  separate `Option Side` field: `add` dispatches on `behavior` (as Python's
  liquidation-price recomputation does), so adding to a previously closed,
  currently flat position succeeds exactly as in Python — `side` stays `none`.
  `close` and the check functions are only ever called by the engines under a
  `side == 'long'/'short'` guard, where `side` and `behavior` agree, so they
  are dispatched on `side`.
* The equity sampler (`update_equity_record`) only appends to the equity
  record and never feeds back into balance, position, or the trade ledger,
  so the per-bar step below omits it.
-/

namespace CryptoStrategyLab

/-- Direction of a position: Python uses the strings "long"/"short". -/
inductive Side where
  | long
  | short
deriving DecidableEq, Repr

/-- PnL convention of `LongPositionBehavior.calculate_pnl` /
`ShortPositionBehavior.calculate_pnl` in tools.py. -/
def sidePnl (s : Side) (open_price close_price amount : ℚ) : ℚ :=
  match s with
  | .long => amount * (close_price - open_price)
  | .short => amount * (open_price - close_price)

/-- Liquidation price convention of `calculate_liquidation_price` in
tools.py: long `price * (1 - 1 / leverage)`, short `price * (1 + 1 / leverage)`. -/
def sideLiquidationPrice (s : Side) (leverage price : ℚ) : ℚ :=
  match s with
  | .long => price * (1 - 1 / leverage)
  | .short => price * (1 + 1 / leverage)

/-- Stop-loss trigger of `check_for_sl` in tools.py: long `low <= sl_price`,
short `high >= sl_price`. -/
def sideCheckSl (s : Side) (sl_price low high : ℚ) : Bool :=
  match s with
  | .long => decide (low ≤ sl_price)
  | .short => decide (high ≥ sl_price)

/-- Take-profit trigger of `check_for_tp` in tools.py: long `high >= tp_price`,
short `low <= tp_price`. -/
def sideCheckTp (s : Side) (tp_price low high : ℚ) : Bool :=
  match s with
  | .long => decide (high ≥ tp_price)
  | .short => decide (low ≤ tp_price)

/-- Liquidation trigger of `check_for_liquidation` in tools.py: long
`low <= liquidation_price`, short `high >= liquidation_price`. -/
def sideCheckLiq (s : Side) (liquidation_price low high : ℚ) : Bool :=
  match s with
  | .long => decide (low ≤ liquidation_price)
  | .short => decide (high ≥ liquidation_price)

/-- The `Position` object of tools.py.  Fields that Python initialises to
`None` and only reads after they are written are given neutral defaults. -/
structure Position where
  leverage : ℚ
  open_fee_rate : ℚ
  close_fee_rate : ℚ
  side : Option Side := none
  behavior : Option Side := none
  open_time : Nat := 0
  close_time : Nat := 0
  open_price : ℚ := 0
  close_price : ℚ := 0
  open_reason : String := ""
  close_reason : String := ""
  open_fee : ℚ := 0
  close_fee : ℚ := 0
  initial_margin : ℚ := 0
  open_notional_value : ℚ := 0
  close_notional_value : ℚ := 0
  amount : ℚ := 0
  net_pnl : ℚ := 0
  net_pnl_pct : ℚ := 0
  sl_price : ℚ := 0
  tp_price : Option ℚ := none
  liquidation_price : ℚ := 0
deriving DecidableEq, Repr

/-- `Position.__init__(leverage, ..., open_fee_rate, close_fee_rate)`. -/
def initPosition (leverage open_fee_rate close_fee_rate : ℚ) : Position :=
  { leverage := leverage, open_fee_rate := open_fee_rate, close_fee_rate := close_fee_rate }

/-- Result of `Position._calculate_opening_metrics`. -/
structure OpeningMetrics where
  open_notional_value : ℚ
  open_fee : ℚ
  amount : ℚ

/-- `Position._calculate_opening_metrics(initial_margin, open_price)`:
notional = margin * leverage; fee = notional * open_fee_rate; notional -= fee;
amount = notional / price. -/
def Position.calcOpeningMetrics (pos : Position) (initial_margin open_price : ℚ) :
    OpeningMetrics :=
  let onv := initial_margin * pos.leverage
  let fee := onv * pos.open_fee_rate
  let onv := onv - fee
  { open_notional_value := onv, open_fee := fee, amount := onv / open_price }

/-- `Position.open(open_time, side, initial_margin, open_price, open_reason,
sl_price, tp_price)` from tools.py. -/
def Position.openPos (pos : Position) (open_time : Nat) (side : Side)
    (initial_margin open_price : ℚ) (open_reason : String)
    (sl_price : ℚ) (tp_price : Option ℚ) : Position :=
  let m := pos.calcOpeningMetrics initial_margin open_price
  { pos with
    open_time := open_time
    side := some side
    behavior := some side
    initial_margin := initial_margin
    open_price := open_price
    open_reason := open_reason
    sl_price := sl_price
    tp_price := tp_price
    open_fee := m.open_fee
    open_notional_value := m.open_notional_value
    amount := m.amount
    liquidation_price := sideLiquidationPrice side pos.leverage open_price }

/-- `Position.add(initial_margin, price, reason)` from tools.py: amount-weighted
repricing plus accumulation of margin, fee, notional, amount, and a fresh
liquidation price from the new open price.  Python's `add` never touches
`side`; its only dispatch is the liquidation-price recomputation through the
persistent `behavior` object.  On a never-opened position (`behavior`
unbound, numeric fields still `None`) the very first line
`open_price * amount` raises `TypeError`, modelled as `none`; on any
previously opened position — including one that was closed and is currently
flat — `add` succeeds, leaving `side` as it was. -/
def Position.addPos (pos : Position) (initial_margin price : ℚ) (reason : String) :
    Option Position :=
  match pos.behavior with
  | none => none
  | some s =>
    let m := pos.calcOpeningMetrics initial_margin price
    let new_open := (pos.open_price * pos.amount + price * m.amount) / (pos.amount + m.amount)
    some { pos with
      open_reason := reason
      open_price := new_open
      initial_margin := pos.initial_margin + initial_margin
      open_fee := pos.open_fee + m.open_fee
      open_notional_value := pos.open_notional_value + m.open_notional_value
      amount := pos.amount + m.amount
      liquidation_price := sideLiquidationPrice s pos.leverage new_open }

/-- `Position.close(time, price, reason)` from tools.py: realize PnL, fees,
percentage return, and reset `side` to flat — and only `side`: `behavior` and
every numeric field persist.  Both strategies call `close` only under a
`side == 'long'/'short'` guard, where `side` and `behavior` agree, so the
dispatch here is on `side` (see the module conventions). -/
def Position.closePos (pos : Position) (time : Nat) (price : ℚ) (reason : String) : Position :=
  match pos.side with
  | none => pos
  | some s =>
    let pnl := sidePnl s pos.open_price price pos.amount
    let cnv := pos.open_notional_value + pnl
    let cfee := cnv * pos.close_fee_rate
    let npnl := pnl - pos.open_fee - cfee
    { pos with
      close_time := time
      close_price := price
      close_reason := reason
      close_notional_value := cnv
      close_fee := cfee
      net_pnl := npnl
      net_pnl_pct := npnl / pos.initial_margin * 100
      side := none }

/-- C7: for every position opened at price p with leverage L, the liquidation
price is `p * (1 - 1/L)` for a long and `p * (1 + 1/L)` for a short; in
particular a long opened at 100 with leverage 10 gets liquidation price 90 and
a short opened at 100 with leverage 10 gets liquidation price 110. -/
theorem c7_liquidation_price_formula :
    (∀ (pos : Position) (t : Nat) (s : Side) (m p : ℚ) (r : String) (sl : ℚ) (tp : Option ℚ),
      (pos.openPos t s m p r sl tp).liquidation_price =
        match s with
        | .long => p * (1 - 1 / pos.leverage)
        | .short => p * (1 + 1 / pos.leverage)) ∧
    ((initPosition 10 0 0).openPos 0 .long 100 100 "Open long" 85 none).liquidation_price = 90 ∧
    ((initPosition 10 0 0).openPos 0 .short 100 100 "Open short" 115 none).liquidation_price = 110 := by
  refine ⟨fun pos t s m p r sl tp => ?_, ?_, ?_⟩
  · cases s <;> rfl
  · norm_num [initPosition, Position.openPos, Position.calcOpeningMetrics, sideLiquidationPrice]
  · norm_num [initPosition, Position.openPos, Position.calcOpeningMetrics, sideLiquidationPrice]

/-- Python's `round(x, 4)` used by the sizing arithmetic (rounding to 4
decimal places).  Tie behaviour (Python rounds binary-float ties to even)
never matters for any statement in this file. -/
def round4 (x : ℚ) : ℚ := ((round (x * 10000) : ℤ) : ℚ) / 10000

/-- One row of the trade ledger: the dict built by `Position.info()` in
tools.py plus the `open_balance` / `close_balance` keys added by
`Strategy.close_trade` in both strategy files. -/
structure TradeInfo where
  open_time : Nat
  close_time : Nat
  open_reason : String
  close_reason : String
  open_price : ℚ
  close_price : ℚ
  initial_margin : ℚ
  net_pnl : ℚ
  net_pnl_pct : ℚ
  open_notional_value : ℚ
  close_notional_value : ℚ
  amount : ℚ
  open_fee : ℚ
  close_fee : ℚ
  sl_price : ℚ
  tp_price : Option ℚ
  liquidation_price : ℚ
  open_balance : ℚ
  close_balance : ℚ
deriving DecidableEq, Repr

/-- `Position.info()` from tools.py, extended with the two balance keys that
`Strategy.close_trade` adds to the dict before appending it to the ledger. -/
def tradeInfoOf (pos : Position) (open_balance close_balance : ℚ) : TradeInfo :=
  { open_time := pos.open_time
    close_time := pos.close_time
    open_reason := pos.open_reason
    close_reason := pos.close_reason
    open_price := pos.open_price
    close_price := pos.close_price
    initial_margin := pos.initial_margin
    net_pnl := pos.net_pnl
    net_pnl_pct := pos.net_pnl_pct
    open_notional_value := pos.open_notional_value
    close_notional_value := pos.close_notional_value
    amount := pos.amount
    open_fee := pos.open_fee
    close_fee := pos.close_fee
    sl_price := pos.sl_price
    tp_price := pos.tp_price
    liquidation_price := pos.liquidation_price
    open_balance := open_balance
    close_balance := close_balance }

/-- The valid trade modes accepted by `set_trade_mode` in both strategies. -/
def validModes : List String := ["long", "short", "both"]

/-- The supported averaging types of `populate_indicators` in envelope.py. -/
def validAverageTypes : List String := ["DCM", "SMA", "EMA", "WMA"]

/-- Configuration of the envelope strategy (`params` dict of envelope.py).
Optional dict keys are `Option` fields; `mode` defaults to "both" via
`params.setdefault`. -/
structure EnvParams where
  average_type : String
  mode : String := "both"
  envelopes : List ℚ
  stop_loss_pct : ℚ
  price_jump_pct : Option ℚ := none
  position_size_percentage : Option ℚ := none
  position_size_fixed_amount : Option ℚ := none
deriving DecidableEq, Repr

/-- `self.ignore_shorts = self.params["mode"] == "long"` (envelope.py). -/
def EnvParams.ignoreShorts (p : EnvParams) : Bool := p.mode == "long"

/-- `self.ignore_longs = self.params["mode"] == "short"` (envelope.py). -/
def EnvParams.ignoreLongs (p : EnvParams) : Bool := p.mode == "short"

/-- Setup-time validation performed by `Strategy.__init__` in envelope.py:
`populate_indicators` raises `ValueError` for an unsupported average type,
then `set_trade_mode` raises `ValueError` for an invalid trade mode.  No
other configuration key is validated at setup. -/
def envSetup (p : EnvParams) : Except String Unit :=
  if p.average_type ∈ validAverageTypes then
    if p.mode ∈ validModes then .ok () else .error "Wrong strategy mode."
  else .error "The average type is not supported"

/-- One input bar for the envelope engine: raw OHLC plus the externally
computed reference `average` column (the signal provider / `ta` indicator
computation is an excluded collaborator).  Band and signal columns are
derived from these by `populate_indicators` / `populate_long_signals` /
`populate_short_signals` below, exactly as envelope.py computes them. -/
structure EnvRow where
  open_ : ℚ
  high : ℚ
  low : ℚ
  close : ℚ
  average : ℚ
deriving DecidableEq, Repr

/-- `band_high_{i+1} = average / (1 - e_i)` (envelope.py populate_indicators;
indices here are 0-based where Python column names are 1-based). -/
def bandHigh (p : EnvParams) (avg : ℚ) (i : Nat) : ℚ := avg / (1 - p.envelopes.getD i 0)

/-- `band_low_{i+1} = average * (1 - e_i)` (envelope.py populate_indicators). -/
def bandLow (p : EnvParams) (avg : ℚ) (i : Nat) : ℚ := avg * (1 - p.envelopes.getD i 0)

/-- Column lookup for `open_long_{i+1}`: the column exists iff
`populate_long_signals` ran (i.e. longs are not ignored); its value is
`low <= band_low_{i+1}`.  `none` models a Python `KeyError`. -/
def openLongSig (p : EnvParams) (row : EnvRow) (i : Nat) : Option Bool :=
  if p.ignoreLongs then none else some (decide (row.low ≤ bandLow p row.average i))

/-- Column lookup for `open_short_{i+1}`: exists iff `populate_short_signals`
ran; value `high >= band_high_{i+1}`. -/
def openShortSig (p : EnvParams) (row : EnvRow) (i : Nat) : Option Bool :=
  if p.ignoreShorts then none else some (decide (row.high ≥ bandHigh p row.average i))

/-- Column lookup for `close_long` (value `high >= average`) and
`close_short` (value `low <= average`), per side. -/
def closeSig (p : EnvParams) (row : EnvRow) (s : Side) : Option Bool :=
  match s with
  | .long => if p.ignoreLongs then none else some (decide (row.high ≥ row.average))
  | .short => if p.ignoreShorts then none else some (decide (row.low ≤ row.average))

/-- Mutable per-run state of the envelope engine: the `good_to_trade` gate,
the per-bar `position_was_closed` flag, the band watermark `n_bands_hit`,
`last_position_side`, the cash `balance`, the `Position`, and the trade
ledger `trades_info`. -/
structure EnvState where
  good_to_trade : Bool
  position_was_closed : Bool
  n_bands_hit : Nat
  last_position_side : Option Side
  balance : ℚ
  position : Position
  trades : List TradeInfo
deriving DecidableEq, Repr

/-- Terminal outcomes of a bar evaluation in envelope.py: `sys.exit()` on
liquidation (reporting time and liquidation price), or a Python runtime
exception (missing signal column, or sizing with no recognized sizing key).
The carried state is the engine state at the moment the run stopped. -/
inductive EnvHalt where
  | liquidation (time : Nat) (price : ℚ) (st : EnvState)
  | keyError (st : EnvState)
deriving DecidableEq, Repr

/-- The ledger entry appended by `Strategy.close_trade` in envelope.py: the
`Position.info()` dict after the close, plus the `open_balance` key (the
balance at the moment `close_trade` runs, before the credit) and the
`close_balance` key (the credited balance), minus the `tp_price` key that
envelope.py `del`s. -/
def envTradeOf (st : EnvState) (time : Nat) (price : ℚ) (reason : String) : TradeInfo :=
  let pos := st.position.closePos time price reason
  { tradeInfoOf pos st.balance (st.balance + pos.initial_margin + pos.net_pnl) with
      tp_price := none }

/-- `Strategy.close_trade(time, price, reason)` from envelope.py: close the
position, credit `initial_margin + net_pnl` back to the balance, and append
the ledger entry. -/
def envCloseTrade (st : EnvState) (time : Nat) (price : ℚ) (reason : String) : EnvState :=
  let pos := st.position.closePos time price reason
  { st with
    position := pos
    balance := st.balance + pos.initial_margin + pos.net_pnl
    trades := st.trades ++ [envTradeOf st time price reason] }

/-- The gate-reopening check at the top of `evaluate_orders` (envelope.py
lines 76-80): while `good_to_trade` is false, it flips back to true when the
bar close recrosses the reference average to the last position's favorable
side.  Reading `last_position_side` before any entry ever set it would be a
Python `AttributeError` (unreachable in real runs, where the gate only
closes after a position existed). -/
def envGateUpdate (st : EnvState) (row : EnvRow) : Except EnvHalt EnvState :=
  if st.good_to_trade then .ok st
  else
    match st.last_position_side with
    | some .long => .ok (if row.close > row.average then { st with good_to_trade := true } else st)
    | some .short => .ok (if row.close < row.average then { st with good_to_trade := true } else st)
    | none => .error (.keyError st)

/-- The adverse-open ("price jump") guard condition of envelope.py: the key
`price_jump_pct` is configured and the bar open already breached the
threshold relative to the position's open price. -/
def envJumpCond (p : EnvParams) (pos : Position) (row : EnvRow) (s : Side) : Bool :=
  match p.price_jump_pct, s with
  | some j, .long => decide (row.open_ ≤ pos.open_price * (1 - j))
  | some j, .short => decide (row.open_ ≥ pos.open_price * (1 + j))
  | none, _ => false

/-- Close reason string of the adverse-open guard: "CA long" / "CA short". -/
def jumpReason (s : Side) : String :=
  match s with
  | .long => "CA long"
  | .short => "CA short"

/-- Close reason string of a stop-loss close: "SL long" / "SL short". -/
def slReason (s : Side) : String :=
  match s with
  | .long => "SL long"
  | .short => "SL short"

/-- Close reason string of a take-profit close: "TP long" / "TP short". -/
def tpReason (s : Side) : String :=
  match s with
  | .long => "TP long"
  | .short => "TP short"

/-- Close reason string of a signal exit: "Exit long" / "Exit short". -/
def exitReason (s : Side) : String :=
  match s with
  | .long => "Exit long"
  | .short => "Exit short"

/-- The close-condition cascade of `evaluate_orders` in envelope.py (lines
82-120), run when a position is open: adverse-open guard, then stop-loss,
then liquidation (`sys.exit`), then the signal exit at the reference
average.  Jump and stop-loss closes shut the gate and reset the watermark;
the signal exit sets `position_was_closed` and resets the watermark. -/
def envClosePhase (p : EnvParams) (time : Nat) (st : EnvState) (row : EnvRow) :
    Except EnvHalt EnvState :=
  match st.position.side with
  | none => .ok st
  | some s =>
    if envJumpCond p st.position row s then
      .ok { envCloseTrade st time row.open_ (jumpReason s) with
              good_to_trade := false, n_bands_hit := 0 }
    else if sideCheckSl s st.position.sl_price row.low row.high then
      .ok { envCloseTrade st time st.position.sl_price (slReason s) with
              good_to_trade := false, n_bands_hit := 0 }
    else if sideCheckLiq s st.position.liquidation_price row.low row.high then
      .error (.liquidation time st.position.liquidation_price st)
    else
      match closeSig p row s with
      | none => .error (.keyError st)
      | some b =>
        if b then
          .ok { envCloseTrade st time row.average (exitReason s) with
                  position_was_closed := true, n_bands_hit := 0 }
        else .ok st

/-- Per-leg margin of the envelope entry loop (envelope.py lines 139-143):
percent-of-balance sizing `balance * round(pct/100/N, 4)` takes precedence,
then fixed-amount sizing `round(amount/N, 4)`; with neither key configured
the Python local `initial_margin` is never assigned and the subsequent use
raises (modelled as `none`).  `snapBal` is the balance snapshot taken once
before the loop (`balance = self.balance`). -/
def envSizing (p : EnvParams) (snapBal : ℚ) : Option ℚ :=
  match p.position_size_percentage with
  | some pct => some (snapBal * round4 (pct / 100 / (p.envelopes.length : ℚ)))
  | none =>
    match p.position_size_fixed_amount with
    | some amt => some (round4 (amt / (p.envelopes.length : ℚ)))
    | none => none

/-- `calculate_long_sl_price` / `calculate_short_sl_price` of envelope.py. -/
def envSlCalc (p : EnvParams) (s : Side) (avg_open_price : ℚ) : ℚ :=
  match s with
  | .long => avg_open_price * (1 - p.stop_loss_pct)
  | .short => avg_open_price * (1 + p.stop_loss_pct)

/-- Open reason string "Open long {i+1}" / "Open short {i+1}" (1-based band
number, matching the Python f-string). -/
def envOpenReason (s : Side) (n : Nat) : String :=
  match s with
  | .long => "Open long " ++ toString n
  | .short => "Open short " ++ toString n

/-- Band-selection step of one entry-loop iteration (envelope.py lines
125-134): try the long trigger first (unless a short is open), then the
short trigger (unless a long is open); `none` selection means `continue`.
Looking up a signal column that was never populated is a `KeyError`. -/
def envTrySelect (p : EnvParams) (st : EnvState) (row : EnvRow) (i : Nat) :
    Except EnvHalt (Option (Side × ℚ)) :=
  let tryShort : Except EnvHalt (Option (Side × ℚ)) :=
    match st.position.side with
    | some .long => .ok none
    | _ =>
      match openShortSig p row i with
      | none => .error (.keyError st)
      | some b => if b then .ok (some (.short, bandHigh p row.average i)) else .ok none
  match st.position.side with
  | some .short => tryShort
  | _ =>
    match openLongSig p row i with
    | none => .error (.keyError st)
    | some b => if b then .ok (some (.long, bandLow p row.average i)) else tryShort

/-- Filling one band (envelope.py lines 136-159): record the side, debit the
margin, advance the watermark, then `Position.open` for band index 0 and
`Position.add` (with the stop-loss recomputed from the new weighted open
price) for later bands.  Adding to a position that was never opened in the
whole run is a Python runtime error; adding to a previously closed, currently
flat position succeeds (non-nested band triggers can skip band 0 via
`continue` and fill a later band from flat), debiting the margin without
opening a position — `side` stays `None`. -/
def envFill (p : EnvParams) (time : Nat) (st : EnvState) (i : Nat) (s : Side)
    (price initial_margin : ℚ) : Except EnvHalt EnvState :=
  let st := { st with
    last_position_side := some s
    balance := st.balance - initial_margin
    n_bands_hit := st.n_bands_hit + 1 }
  if i = 0 then
    .ok { st with position := (st.position.openPos time s initial_margin price
        (envOpenReason s (i + 1)) (envSlCalc p s price) none) }
  else
    match st.position.addPos initial_margin price (envOpenReason s (i + 1)) with
    | none => .error (.keyError st)
    | some pos => .ok { st with position := { pos with sl_price := envSlCalc p s pos.open_price } }

/-- The entry loop `for i in range(self.n_bands_hit, len(envelopes))` of
envelope.py, over the explicit list of remaining band indices.  Besides the
resulting state it returns, as a ghost output, the list of band indices that
were actually filled on this bar. -/
def envEntryLoop (p : EnvParams) (time : Nat) (snapBal : ℚ) (row : EnvRow) :
    List Nat → EnvState → Except EnvHalt (EnvState × List Nat)
  | [], st => .ok (st, [])
  | i :: rest, st =>
    match envTrySelect p st row i with
    | .error e => .error e
    | .ok none => envEntryLoop p time snapBal row rest st
    | .ok (some (s, price)) =>
      match envSizing p snapBal with
      | none => .error (.keyError st)
      | some m =>
        match envFill p time st i s price m with
        | .error e => .error e
        | .ok stf =>
          match envEntryLoop p time snapBal row rest stf with
          | .error e => .error e
          | .ok (st', is) => .ok (st', i :: is)

/-- The guarded entry phase of `evaluate_orders` (envelope.py lines 122-159):
runs only when the gate is open and no signal exit closed the position on
this bar; takes a balance snapshot and iterates the unfilled bands. -/
def envEntryPhase (p : EnvParams) (time : Nat) (st : EnvState) (row : EnvRow) :
    Except EnvHalt EnvState :=
  if st.good_to_trade && !st.position_was_closed then
    (envEntryLoop p time st.balance row
      ((List.range p.envelopes.length).drop st.n_bands_hit) st).map Prod.fst
  else .ok st

/-- `Strategy.evaluate_orders(time, row)` of envelope.py: reset the per-bar
`position_was_closed` flag, update the gate, run the close cascade, then the
entry phase. -/
def envEval (p : EnvParams) (time : Nat) (st0 : EnvState) (row : EnvRow) :
    Except EnvHalt EnvState :=
  match envGateUpdate { st0 with position_was_closed := false } row with
  | .error e => .error e
  | .ok st1 =>
    match envClosePhase p time st1 row with
    | .error e => .error e
    | .ok st2 => envEntryPhase p time st2 row

/-- Final outcome of an envelope backtest run: either all bars were
processed, or the run stopped (liquidation `sys.exit` / Python exception). -/
inductive EnvOutcome where
  | finished (st : EnvState)
  | halted (h : EnvHalt)
deriving DecidableEq, Repr

/-- The bar loop of `Strategy.run_backtest` in envelope.py (the equity-record
sampling it also performs never feeds back into this state; see the module
conventions). -/
def envRun (p : EnvParams) : Nat → EnvState → List EnvRow → EnvOutcome
  | _, st, [] => .finished st
  | t, st, row :: rest =>
    match envEval p t st row with
    | .error h => .halted h
    | .ok st' => envRun p (t + 1) st' rest

/-- Initial engine state built by `Strategy.__init__` and
`Strategy.run_backtest` in envelope.py. -/
def envInit (initial_balance leverage open_fee_rate close_fee_rate : ℚ) : EnvState :=
  { good_to_trade := true
    position_was_closed := false
    n_bands_hit := 0
    last_position_side := none
    balance := initial_balance
    position := initPosition leverage open_fee_rate close_fee_rate
    trades := [] }

/-- Configuration of the SMA-cross strategy (`params` dict of simple_sma.py).
`position_size_exposure` models presence of that dict key (its value is
never read); the risk-adjusted branch then reads the separate `exposure`
key. -/
structure SmaParams where
  mode : String := "both"
  position_size_percentage : Option ℚ := none
  position_size_exposure : Option Unit := none
  exposure : Option ℚ := none
  position_size_fixed_amount : Option ℚ := none
deriving DecidableEq, Repr

/-- `self.ignore_shorts` of simple_sma.py. -/
def SmaParams.ignoreShorts (p : SmaParams) : Bool := p.mode == "long"

/-- `self.ignore_longs` of simple_sma.py. -/
def SmaParams.ignoreLongs (p : SmaParams) : Bool := p.mode == "short"

/-- Setup-time validation of `Strategy.__init__` in simple_sma.py: only
`set_trade_mode` validates anything (`populate_indicators` just computes the
three moving averages). -/
def smaSetup (p : SmaParams) : Except String Unit :=
  if p.mode ∈ validModes then .ok () else .error "Wrong strategy mode."

/-- One input bar for the SMA-cross engine: raw OHLC plus the pre-signaled
boolean columns.  The signal columns exist only when the corresponding
`populate_*_signals` routine ran for the configured mode (`none` models a
missing column, i.e. a `KeyError` on access); their values come from the
externally computed moving averages, so they are free inputs here. -/
structure SmaRow where
  open_ : ℚ
  high : ℚ
  low : ℚ
  close : ℚ
  open_long : Option Bool := none
  close_long : Option Bool := none
  open_short : Option Bool := none
  close_short : Option Bool := none
deriving DecidableEq, Repr

/-- `calculate_long_tp_price(row) = close * 1.3` (simple_sma.py). -/
def smaLongTp (row : SmaRow) : ℚ := row.close * (13 / 10)

/-- `calculate_long_sl_price(row) = close * 0.85` (simple_sma.py). -/
def smaLongSl (row : SmaRow) : ℚ := row.close * (85 / 100)

/-- `calculate_short_tp_price(row) = close * 0.7` (simple_sma.py). -/
def smaShortTp (row : SmaRow) : ℚ := row.close * (7 / 10)

/-- `calculate_short_sl_price(row) = close * 1.15` (simple_sma.py). -/
def smaShortSl (row : SmaRow) : ℚ := row.close * (115 / 100)

/-- `Strategy.calculate_initial_margin(balance, price, stop_loss_price)` of
simple_sma.py: percent-of-balance, else risk-adjusted-to-stop-distance
(which reads the separate `exposure` key; missing it is a `KeyError`,
modelled as `none`), else fixed amount; with no recognized sizing key the
Python function falls through and returns `None` (also `none` here, which
makes the subsequent `balance -= initial_margin` raise). -/
def smaInitialMargin (p : SmaParams) (balance price stop_loss_price : ℚ) : Option ℚ :=
  match p.position_size_percentage with
  | some pct => some (balance * pct / 100)
  | none =>
    match p.position_size_exposure with
    | some _ =>
      match p.exposure with
      | some e => some (balance * e / 100 * price / |price - stop_loss_price|)
      | none => none
    | none =>
      match p.position_size_fixed_amount with
      | some amt => some amt
      | none => none

/-- Mutable per-run state of the SMA-cross engine. -/
structure SmaState where
  balance : ℚ
  position : Position
  trades : List TradeInfo
deriving DecidableEq, Repr

/-- Terminal outcomes of a bar evaluation in simple_sma.py (same conventions
as `EnvHalt`). -/
inductive SmaHalt where
  | liquidation (time : Nat) (price : ℚ) (st : SmaState)
  | keyError (st : SmaState)
deriving DecidableEq, Repr

/-- The ledger entry appended by `Strategy.close_trade` in simple_sma.py
(same as the envelope one but the `tp_price` key is kept). -/
def smaTradeOf (st : SmaState) (time : Nat) (price : ℚ) (reason : String) : TradeInfo :=
  let pos := st.position.closePos time price reason
  tradeInfoOf pos st.balance (st.balance + pos.initial_margin + pos.net_pnl)

/-- `Strategy.close_trade` of simple_sma.py. -/
def smaCloseTrade (st : SmaState) (time : Nat) (price : ℚ) (reason : String) : SmaState :=
  let pos := st.position.closePos time price reason
  { st with
    position := pos
    balance := st.balance + pos.initial_margin + pos.net_pnl
    trades := st.trades ++ [smaTradeOf st time price reason] }

/-- Entry evaluation of simple_sma.py (lines 113-128), reached when the
position is flat: long entry first (short-circuit: the `open_long` column is
only read when longs are not ignored), then the short entry; sizing may fail
(see `smaInitialMargin`). -/
def smaEntryPhase (p : SmaParams) (time : Nat) (st : SmaState) (row : SmaRow) :
    Except SmaHalt SmaState :=
  let price := row.close
  let tryShortEntry : Except SmaHalt SmaState :=
    if p.ignoreShorts then .ok st
    else
      match row.open_short with
      | none => .error (.keyError st)
      | some b =>
        if b then
          let sl := smaShortSl row
          let tp := smaShortTp row
          match smaInitialMargin p st.balance price sl with
          | none => .error (.keyError st)
          | some m =>
            .ok { st with
              balance := st.balance - m
              position := st.position.openPos time .short m price "Open short" sl (some tp) }
        else .ok st
  if p.ignoreLongs then tryShortEntry
  else
    match row.open_long with
    | none => .error (.keyError st)
    | some b =>
      if b then
        let sl := smaLongSl row
        let tp := smaLongTp row
        match smaInitialMargin p st.balance price sl with
        | none => .error (.keyError st)
        | some m =>
          .ok { st with
            balance := st.balance - m
            position := st.position.openPos time .long m price "Open long" sl (some tp) }
      else tryShortEntry

/-- The exit-signal column consulted for an open position in simple_sma.py:
`close_long` for a long, `close_short` for a short. -/
def smaExitCol (row : SmaRow) (s : Side) : Option Bool :=
  match s with
  | .long => row.close_long
  | .short => row.close_short

/-- `Strategy.evaluate_orders(time, row)` of simple_sma.py: with an open
position, the cascade stop-loss, liquidation (`sys.exit`), take-profit,
signal exit; otherwise entry evaluation.  Comparing against an unset
take-profit would be a Python `TypeError` (unreachable: simple_sma always
opens with a take-profit). -/
def smaEval (p : SmaParams) (time : Nat) (st : SmaState) (row : SmaRow) :
    Except SmaHalt SmaState :=
  match st.position.side with
  | some s =>
    if sideCheckSl s st.position.sl_price row.low row.high then
      .ok (smaCloseTrade st time st.position.sl_price (slReason s))
    else if sideCheckLiq s st.position.liquidation_price row.low row.high then
      .error (.liquidation time st.position.liquidation_price st)
    else
      match st.position.tp_price with
      | none => .error (.keyError st)
      | some tp =>
        if sideCheckTp s tp row.low row.high then
          .ok (smaCloseTrade st time tp (tpReason s))
        else
          match smaExitCol row s with
          | none => .error (.keyError st)
          | some b =>
            if b then .ok (smaCloseTrade st time row.close (exitReason s)) else .ok st
  | none => smaEntryPhase p time st row

/-- Final outcome of an SMA-cross backtest run. -/
inductive SmaOutcome where
  | finished (st : SmaState)
  | halted (h : SmaHalt)
deriving DecidableEq, Repr

/-- The bar loop of `Strategy.run_backtest` in simple_sma.py (equity
sampling omitted for the same reason as in `envRun`). -/
def smaRun (p : SmaParams) : Nat → SmaState → List SmaRow → SmaOutcome
  | _, st, [] => .finished st
  | t, st, row :: rest =>
    match smaEval p t st row with
    | .error h => .halted h
    | .ok st' => smaRun p (t + 1) st' rest

/-- Initial engine state of `Strategy.run_backtest` in simple_sma.py (a
single `fee_rate` feeds both the open and close fee rates). -/
def smaInit (initial_balance leverage fee_rate : ℚ) : SmaState :=
  { balance := initial_balance
    position := initPosition leverage fee_rate fee_rate
    trades := [] }

/-- The trade ledger visible in a finished or halted SMA run. -/
def smaOutcomeTrades : SmaOutcome → List TradeInfo
  | .finished st => st.trades
  | .halted (.liquidation _ _ st) => st.trades
  | .halted (.keyError st) => st.trades

/-- The trade ledger visible in a finished or halted envelope run. -/
def envOutcomeTrades : EnvOutcome → List TradeInfo
  | .finished st => st.trades
  | .halted (.liquidation _ _ st) => st.trades
  | .halted (.keyError st) => st.trades

/-- Margin currently committed to an open position (0 when flat).  Together
with the cash balance this is the deployable-capital accounting quantity. -/
def heldMargin (pos : Position) : ℚ :=
  match pos.side with
  | some _ => pos.initial_margin
  | none => 0

/-- Total realized net PnL recorded in a trade ledger. -/
def netSum (ts : List TradeInfo) : ℚ := (ts.map TradeInfo.net_pnl).sum

lemma netSum_append (ts : List TradeInfo) (tr : TradeInfo) :
    netSum (ts ++ [tr]) = netSum ts + tr.net_pnl := by
  simp [netSum]

lemma mem_drop_range {N n j : Nat} (h : j ∈ (List.range N).drop n) : n ≤ j := by
  obtain ⟨i, hi, rfl⟩ := List.mem_iff_getElem.mp h
  rw [List.getElem_drop, List.getElem_range]
  omega

lemma closePos_side (pos : Position) (t : Nat) (pr : ℚ) (r : String) :
    (pos.closePos t pr r).side = none := by
  cases h : pos.side <;> simp [Position.closePos, h]

lemma closePos_margin (pos : Position) (t : Nat) (pr : ℚ) (r : String) :
    (pos.closePos t pr r).initial_margin = pos.initial_margin := by
  cases h : pos.side <;> simp [Position.closePos, h]

lemma closePos_reason (pos : Position) (t : Nat) (pr : ℚ) (r : String) (s : Side)
    (h : pos.side = some s) :
    (pos.closePos t pr r).close_reason = r ∧ (pos.closePos t pr r).close_price = pr := by
  simp [Position.closePos, h]

lemma envTradeOf_ledger_identity (st : EnvState) (t : Nat) (pr : ℚ) (r : String) :
    (envTradeOf st t pr r).open_balance = st.balance ∧
    (envTradeOf st t pr r).close_balance =
      (envTradeOf st t pr r).open_balance + (envTradeOf st t pr r).initial_margin +
        (envTradeOf st t pr r).net_pnl := by
  cases h : st.position.side <;>
    simp [envTradeOf, tradeInfoOf, Position.closePos, h]

lemma smaTradeOf_ledger_identity (st : SmaState) (t : Nat) (pr : ℚ) (r : String) :
    (smaTradeOf st t pr r).open_balance = st.balance ∧
    (smaTradeOf st t pr r).close_balance =
      (smaTradeOf st t pr r).open_balance + (smaTradeOf st t pr r).initial_margin +
        (smaTradeOf st t pr r).net_pnl := by
  cases h : st.position.side <;>
    simp [smaTradeOf, tradeInfoOf, Position.closePos, h]

lemma envCloseTrade_fields (st : EnvState) (t : Nat) (pr : ℚ) (r : String) :
    (envCloseTrade st t pr r).trades = st.trades ++ [envTradeOf st t pr r] ∧
    (envCloseTrade st t pr r).position.side = none ∧
    (envCloseTrade st t pr r).balance = (envTradeOf st t pr r).close_balance ∧
    (envCloseTrade st t pr r).good_to_trade = st.good_to_trade ∧
    (envCloseTrade st t pr r).position_was_closed = st.position_was_closed ∧
    (envCloseTrade st t pr r).n_bands_hit = st.n_bands_hit ∧
    (envCloseTrade st t pr r).last_position_side = st.last_position_side := by
  refine ⟨rfl, closePos_side _ _ _ _, ?_, rfl, rfl, rfl, rfl⟩
  cases h : st.position.side <;>
    simp [envCloseTrade, envTradeOf, tradeInfoOf, Position.closePos, h]

lemma smaCloseTrade_fields (st : SmaState) (t : Nat) (pr : ℚ) (r : String) :
    (smaCloseTrade st t pr r).trades = st.trades ++ [smaTradeOf st t pr r] ∧
    (smaCloseTrade st t pr r).position.side = none ∧
    (smaCloseTrade st t pr r).balance = (smaTradeOf st t pr r).close_balance := by
  refine ⟨rfl, closePos_side _ _ _ _, ?_⟩
  cases h : st.position.side <;>
    simp [smaCloseTrade, smaTradeOf, tradeInfoOf, Position.closePos, h]

lemma envGateUpdate_of_good (st : EnvState) (row : EnvRow) (h : st.good_to_trade = true) :
    envGateUpdate st row = .ok st := by
  simp [envGateUpdate, h]

lemma envGateUpdate_ok (st : EnvState) (row : EnvRow) (st1 : EnvState)
    (h : envGateUpdate st row = .ok st1) :
    st1.position = st.position ∧ st1.balance = st.balance ∧ st1.trades = st.trades ∧
    st1.n_bands_hit = st.n_bands_hit ∧ st1.position_was_closed = st.position_was_closed ∧
    st1.last_position_side = st.last_position_side := by
  unfold envGateUpdate at h
  by_cases hg : st.good_to_trade = true
  · simp [hg] at h
    subst h
    exact ⟨rfl, rfl, rfl, rfl, rfl, rfl⟩
  · simp [hg] at h
    rcases hl : st.last_position_side with _ | s
    · simp [hl] at h
    · cases s <;> simp [hl] at h <;> split at h <;> subst h <;>
        first
          | exact ⟨rfl, rfl, rfl, rfl, rfl, rfl⟩
          | exact ⟨rfl, rfl, rfl, rfl, rfl, hl⟩

lemma EnvState_reset_pwc (st : EnvState) (h : st.position_was_closed = false) :
    { st with position_was_closed := false } = st := by
  cases st
  simp_all

lemma addPos_some (pos pos' : Position) (m pr : ℚ) (r : String)
    (h : pos.addPos m pr r = some pos') :
    pos'.side = pos.side ∧ pos'.initial_margin = pos.initial_margin + m ∧
    pos.behavior.isSome := by
  unfold Position.addPos at h
  cases hs : pos.behavior with
  | none => rw [hs] at h; cases h
  | some s =>
    rw [hs] at h
    cases h
    simp [hs]

lemma envFill_ok (p : EnvParams) (t : Nat) (st : EnvState) (i : Nat) (s : Side)
    (price m : ℚ) (st' : EnvState) (h : envFill p t st i s price m = .ok st') :
    st'.trades = st.trades ∧ st'.good_to_trade = st.good_to_trade ∧
    st'.position_was_closed = st.position_was_closed ∧
    st'.n_bands_hit = st.n_bands_hit + 1 ∧
    st'.balance = st.balance - m ∧
    st'.last_position_side = some s ∧
    (st'.position.side = some s ∨ st'.position.side = st.position.side) := by
  unfold envFill at h
  by_cases hi : i = 0
  · simp only [hi, if_pos rfl, Except.ok.injEq, if_true] at h
    subst h
    simp [Position.openPos]
  · simp only [hi, if_neg hi, if_false] at h
    cases ha : Position.addPos { st with
        last_position_side := some s
        balance := st.balance - m
        n_bands_hit := st.n_bands_hit + 1 }.position m price (envOpenReason s (i + 1)) with
    | none => rw [ha] at h; cases h
    | some pos =>
      rw [ha] at h
      cases h
      have hside := (addPos_some _ _ _ _ _ ha).1
      refine ⟨rfl, rfl, rfl, rfl, rfl, rfl, Or.inr ?_⟩
      simpa using hside

lemma envFill_conserve (p : EnvParams) (t : Nat) (st : EnvState) (i : Nat) (s : Side)
    (price m : ℚ) (st' : EnvState) (h0 : i = 0 → st.position.side = none)
    (h1 : i ≠ 0 → st.position.side.isSome)
    (h : envFill p t st i s price m = .ok st') :
    st'.balance + heldMargin st'.position = st.balance + heldMargin st.position := by
  unfold envFill at h
  by_cases hi : i = 0
  · have hflat := h0 hi
    simp only [hi, if_pos rfl, Except.ok.injEq, if_true] at h
    subst h
    simp [heldMargin, Position.openPos, hflat]
  · simp only [hi, if_neg hi, if_false] at h
    cases ha : Position.addPos { st with
        last_position_side := some s
        balance := st.balance - m
        n_bands_hit := st.n_bands_hit + 1 }.position m price (envOpenReason s (i + 1)) with
    | none => rw [ha] at h; cases h
    | some pos =>
      rw [ha] at h
      cases h
      obtain ⟨hside, hmargin, _⟩ := addPos_some _ _ _ _ _ ha
      simp only at hside hmargin
      have hss := h1 hi
      cases hs : st.position.side with
      | none => rw [hs] at hss; cases hss
      | some s0 =>
        simp [heldMargin, hside, hs, hmargin]

lemma envEntryLoop_spec (p : EnvParams) (t : Nat) (b : ℚ) (row : EnvRow) (is : List Nat) :
    ∀ (st st' : EnvState) (fills : List Nat),
      envEntryLoop p t b row is st = .ok (st', fills) →
      st'.trades = st.trades ∧ st'.good_to_trade = st.good_to_trade ∧
      st'.position_was_closed = st.position_was_closed ∧
      st'.n_bands_hit = st.n_bands_hit + fills.length ∧
      fills.Sublist is ∧ (fills = [] → st' = st) := by
  induction is with
  | nil =>
    intro st st' fills h
    simp only [envEntryLoop, Except.ok.injEq, Prod.mk.injEq] at h
    obtain ⟨h1, h2⟩ := h
    subst h1
    subst h2
    simp
  | cons i rest ih =>
    intro st st' fills h
    simp only [envEntryLoop] at h
    cases hsel : envTrySelect p st row i with
    | error e => simp only [hsel] at h; simp at h
    | ok osel =>
      cases osel with
      | none =>
        simp only [hsel] at h
        obtain ⟨h1, h2, h3, h4, h5, h6⟩ := ih st st' fills h
        exact ⟨h1, h2, h3, h4, h5.cons i, h6⟩
      | some sel =>
        obtain ⟨s, price⟩ := sel
        simp only [hsel] at h
        cases hm : envSizing p b with
        | none => simp only [hm] at h; simp at h
        | some m =>
          simp only [hm] at h
          cases hf : envFill p t st i s price m with
          | error e => simp only [hf] at h; simp at h
          | ok stf =>
            simp only [hf] at h
            cases hrec : envEntryLoop p t b row rest stf with
            | error e => simp only [hrec] at h; simp at h
            | ok pr =>
              obtain ⟨st2, fl⟩ := pr
              simp only [hrec] at h
              simp only [Except.ok.injEq, Prod.mk.injEq] at h
              obtain ⟨h1, h2⟩ := h
              subst h1
              subst h2
              obtain ⟨g1, g2, g3, g4, g5, g6⟩ := ih stf st2 fl hrec
              obtain ⟨f1, f2, f3, f4, f5, f6, f7⟩ := envFill_ok p t st i s price m stf hf
              refine ⟨by rw [g1, f1], by rw [g2, f2], by rw [g3, f3], ?_, g5.cons₂ i, ?_⟩
              · rw [g4, f4]
                simp
                omega
              · intro hcon
                cases hcon

lemma envEntryLoop_conserve (p : EnvParams) (t : Nat) (b : ℚ) (row : EnvRow) (is : List Nat) :
    ∀ (st st' : EnvState) (fills : List Nat),
      st.position.side.isSome →
      (0 : Nat) ∉ is →
      envEntryLoop p t b row is st = .ok (st', fills) →
      st'.balance + heldMargin st'.position = st.balance + heldMargin st.position := by
  induction is with
  | nil =>
    intro st st' fills _ _ h
    simp only [envEntryLoop, Except.ok.injEq, Prod.mk.injEq] at h
    rw [← h.1]
  | cons i rest ih =>
    intro st st' fills hside h0 h
    have hi : i ≠ 0 := by
      rintro rfl
      exact h0 (List.mem_cons_self 0 rest)
    have h0rest : (0 : Nat) ∉ rest := fun hmem => h0 (List.mem_cons_of_mem i hmem)
    simp only [envEntryLoop] at h
    cases hsel : envTrySelect p st row i with
    | error e => simp only [hsel] at h; simp at h
    | ok osel =>
      cases osel with
      | none =>
        simp only [hsel] at h
        exact ih st st' fills hside h0rest h
      | some sel =>
        obtain ⟨s, price⟩ := sel
        simp only [hsel] at h
        cases hm : envSizing p b with
        | none => simp only [hm] at h; simp at h
        | some m =>
          simp only [hm] at h
          cases hf : envFill p t st i s price m with
          | error e => simp only [hf] at h; simp at h
          | ok stf =>
            simp only [hf] at h
            cases hrec : envEntryLoop p t b row rest stf with
            | error e => simp only [hrec] at h; simp at h
            | ok pr =>
              obtain ⟨st2, fl⟩ := pr
              simp only [hrec] at h
              simp only [Except.ok.injEq, Prod.mk.injEq] at h
              obtain ⟨h1, _⟩ := h
              subst h1
              obtain ⟨_, _, _, _, _, _, f7⟩ := envFill_ok p t st i s price m stf hf
              have hstf : stf.position.side.isSome := by
                rcases f7 with f7 | f7
                · rw [f7]
                  rfl
                · rw [f7]
                  exact hside
              have hc1 := envFill_conserve p t st i s price m stf
                (fun hi0 => absurd hi0 hi) (fun _ => hside) hf
              have hc2 := ih stf st2 fl hstf h0rest hrec
              rw [hc2, hc1]

lemma envTrySelect_noShort (p : EnvParams) (st : EnvState) (row : EnvRow) (i : Nat)
    (s : Side) (pr : ℚ) (hms : p.ignoreShorts = true)
    (hsel : envTrySelect p st row i = .ok (some (s, pr))) : s = .long := by
  cases hside : st.position.side with
  | none =>
    cases hl : openLongSig p row i with
    | none => simp [envTrySelect, hside, hl, openShortSig, hms] at hsel
    | some bb =>
      cases bb with
      | false => simp [envTrySelect, hside, hl, openShortSig, hms] at hsel
      | true =>
        simp [envTrySelect, hside, hl, openShortSig, hms] at hsel
        exact hsel.1.symm
  | some s0 =>
    cases s0 with
    | long =>
      cases hl : openLongSig p row i with
      | none => simp [envTrySelect, hside, hl, openShortSig, hms] at hsel
      | some bb =>
        cases bb with
        | false => simp [envTrySelect, hside, hl, openShortSig, hms] at hsel
        | true =>
          simp [envTrySelect, hside, hl, openShortSig, hms] at hsel
          exact hsel.1.symm
    | short => simp [envTrySelect, hside, openShortSig, hms] at hsel

lemma envEntryLoop_noShort (p : EnvParams) (t : Nat) (b : ℚ) (row : EnvRow)
    (hms : p.ignoreShorts = true) (is : List Nat) :
    ∀ (st st' : EnvState) (fills : List Nat),
      st.position.side ≠ some .short →
      envEntryLoop p t b row is st = .ok (st', fills) →
      st'.position.side ≠ some .short := by
  induction is with
  | nil =>
    intro st st' fills hside h
    simp only [envEntryLoop, Except.ok.injEq, Prod.mk.injEq] at h
    rw [← h.1]
    exact hside
  | cons i rest ih =>
    intro st st' fills hside h
    simp only [envEntryLoop] at h
    cases hsel : envTrySelect p st row i with
    | error e => simp only [hsel] at h; simp at h
    | ok osel =>
      cases osel with
      | none =>
        simp only [hsel] at h
        exact ih st st' fills hside h
      | some sel =>
        obtain ⟨s, price⟩ := sel
        simp only [hsel] at h
        have hlong : s = .long := envTrySelect_noShort p st row i s price hms hsel
        cases hm : envSizing p b with
        | none => simp only [hm] at h; simp at h
        | some m =>
          simp only [hm] at h
          cases hf : envFill p t st i s price m with
          | error e => simp only [hf] at h; simp at h
          | ok stf =>
            simp only [hf] at h
            cases hrec : envEntryLoop p t b row rest stf with
            | error e => simp only [hrec] at h; simp at h
            | ok pr =>
              obtain ⟨st2, fl⟩ := pr
              simp only [hrec] at h
              simp only [Except.ok.injEq, Prod.mk.injEq] at h
              obtain ⟨h1, _⟩ := h
              subst h1
              have hstf : stf.position.side ≠ some .short := by
                obtain ⟨_, _, _, _, _, _, hor⟩ := envFill_ok p t st i s price m stf hf
                rcases hor with hor | hor
                · rw [hor, hlong]
                  simp
                · rw [hor]
                  exact hside
              exact ih stf st2 fl hstf hrec

/-- The engine state carried by a halt of the envelope engine. -/
def envHaltState : EnvHalt → EnvState
  | .liquidation _ _ st => st
  | .keyError st => st

/-- The engine state carried by a halt of the SMA engine. -/
def smaHaltState : SmaHalt → SmaState
  | .liquidation _ _ st => st
  | .keyError st => st

/-- The final engine state visible in an envelope run outcome. -/
def envOutcomeState : EnvOutcome → EnvState
  | .finished st => st
  | .halted h => envHaltState h

/-- The final engine state visible in an SMA run outcome. -/
def smaOutcomeState : SmaOutcome → SmaState
  | .finished st => st
  | .halted h => smaHaltState h

lemma envEntryPhase_skip (p : EnvParams) (t : Nat) (st : EnvState) (row : EnvRow)
    (h : st.good_to_trade = false ∨ st.position_was_closed = true) :
    envEntryPhase p t st row = .ok st := by
  rcases h with h | h <;> simp [envEntryPhase, h]

lemma envEntryPhase_ok (p : EnvParams) (t : Nat) (st : EnvState) (row : EnvRow)
    (st' : EnvState) (h : envEntryPhase p t st row = .ok st') :
    st'.trades = st.trades ∧ st'.good_to_trade = st.good_to_trade ∧
    st'.position_was_closed = st.position_was_closed ∧
    st.n_bands_hit ≤ st'.n_bands_hit := by
  unfold envEntryPhase at h
  split at h
  · cases hl : envEntryLoop p t st.balance row
        ((List.range p.envelopes.length).drop st.n_bands_hit) st with
    | error e => rw [hl] at h; simp [Except.map] at h
    | ok pr =>
      obtain ⟨st2, fl⟩ := pr
      rw [hl] at h
      simp only [Except.map, Except.ok.injEq] at h
      subst h
      obtain ⟨g1, g2, g3, g4, _, _⟩ := envEntryLoop_spec p t st.balance row _ st st2 fl hl
      exact ⟨g1, g2, g3, by omega⟩
  · cases h
    exact ⟨rfl, rfl, rfl, le_refl _⟩

lemma envEntryPhase_conserve (p : EnvParams) (t : Nat) (st : EnvState) (row : EnvRow)
    (st' : EnvState) (s : Side) (hside : st.position.side = some s)
    (hn : 1 ≤ st.n_bands_hit) (h : envEntryPhase p t st row = .ok st') :
    st'.balance + heldMargin st'.position = st.balance + heldMargin st.position := by
  unfold envEntryPhase at h
  split at h
  · cases hl : envEntryLoop p t st.balance row
        ((List.range p.envelopes.length).drop st.n_bands_hit) st with
    | error e => rw [hl] at h; simp [Except.map] at h
    | ok pr =>
      obtain ⟨st2, fl⟩ := pr
      rw [hl] at h
      simp only [Except.map, Except.ok.injEq] at h
      subst h
      have h0 : (0 : Nat) ∉ (List.range p.envelopes.length).drop st.n_bands_hit := by
        intro hmem
        have hge := mem_drop_range hmem
        omega
      exact envEntryLoop_conserve p t st.balance row _ st st2 fl
        (by rw [hside]; rfl) h0 hl
  · cases h
    rfl

lemma envEntryPhase_noShort (p : EnvParams) (t : Nat) (st : EnvState) (row : EnvRow)
    (st' : EnvState) (hms : p.ignoreShorts = true)
    (hside : st.position.side ≠ some .short) (h : envEntryPhase p t st row = .ok st') :
    st'.position.side ≠ some .short := by
  unfold envEntryPhase at h
  split at h
  · cases hl : envEntryLoop p t st.balance row
        ((List.range p.envelopes.length).drop st.n_bands_hit) st with
    | error e => rw [hl] at h; simp [Except.map] at h
    | ok pr =>
      obtain ⟨st2, fl⟩ := pr
      rw [hl] at h
      simp only [Except.map, Except.ok.injEq] at h
      subst h
      exact envEntryLoop_noShort p t st.balance row hms _ st st2 fl hside hl
  · cases h
    exact hside

lemma envCloseTrade_conserve (st : EnvState) (t : Nat) (pr : ℚ) (r : String) (s : Side)
    (hside : st.position.side = some s) :
    (envCloseTrade st t pr r).balance + heldMargin (envCloseTrade st t pr r).position
        - netSum (envCloseTrade st t pr r).trades
      = st.balance + heldMargin st.position - netSum st.trades := by
  simp [envCloseTrade, envTradeOf, tradeInfoOf, Position.closePos, hside, heldMargin,
    netSum_append]

lemma smaCloseTrade_conserve (st : SmaState) (t : Nat) (pr : ℚ) (r : String) (s : Side)
    (hside : st.position.side = some s) :
    (smaCloseTrade st t pr r).balance + heldMargin (smaCloseTrade st t pr r).position
        - netSum (smaCloseTrade st t pr r).trades
      = st.balance + heldMargin st.position - netSum st.trades := by
  simp [smaCloseTrade, smaTradeOf, tradeInfoOf, Position.closePos, hside, heldMargin,
    netSum_append]

lemma envClosePhase_cases (p : EnvParams) (t : Nat) (st : EnvState) (row : EnvRow)
    (st2 : EnvState) (h : envClosePhase p t st row = .ok st2) :
    st2 = st ∨
    (st2.position.side = none ∧ st2.n_bands_hit = 0 ∧
      (st2.good_to_trade = false ∨ st2.position_was_closed = true) ∧
      st2.balance + heldMargin st2.position - netSum st2.trades
        = st.balance + heldMargin st.position - netSum st.trades ∧
      st2.trades.length = st.trades.length + 1) := by
  unfold envClosePhase at h
  cases hside : st.position.side with
  | none =>
    simp only [hside, Except.ok.injEq] at h
    exact Or.inl h.symm
  | some s =>
    simp only [hside] at h
    by_cases hj : envJumpCond p st.position row s = true
    · rw [if_pos hj] at h
      simp only [Except.ok.injEq] at h
      subst h
      refine Or.inr ⟨closePos_side _ _ _ _, rfl, Or.inl rfl, ?_, by simp [envCloseTrade]⟩
      exact envCloseTrade_conserve st t row.open_ (jumpReason s) s hside
    · rw [if_neg hj] at h
      by_cases hsl : sideCheckSl s st.position.sl_price row.low row.high = true
      · rw [if_pos hsl] at h
        simp only [Except.ok.injEq] at h
        subst h
        refine Or.inr ⟨closePos_side _ _ _ _, rfl, Or.inl rfl, ?_, by simp [envCloseTrade]⟩
        exact envCloseTrade_conserve st t st.position.sl_price (slReason s) s hside
      · rw [if_neg hsl] at h
        by_cases hlq : sideCheckLiq s st.position.liquidation_price row.low row.high = true
        · rw [if_pos hlq] at h
          cases h
        · rw [if_neg hlq] at h
          cases hcs : closeSig p row s with
          | none => simp only [hcs] at h; cases h
          | some b =>
            simp only [hcs] at h
            cases b with
            | false =>
              simp only [Bool.false_eq_true, if_false, Except.ok.injEq] at h
              exact Or.inl h.symm
            | true =>
              simp only [if_true, Except.ok.injEq] at h
              subst h
              refine Or.inr ⟨closePos_side _ _ _ _, rfl, Or.inr rfl, ?_, by simp [envCloseTrade]⟩
              exact envCloseTrade_conserve st t row.average (exitReason s) s hside

lemma envEval_conserve (p : EnvParams) (t : Nat) (st : EnvState) (row : EnvRow)
    (st' : EnvState) (s : Side) (hside : st.position.side = some s)
    (hn : 1 ≤ st.n_bands_hit) (h : envEval p t st row = .ok st') :
    st'.balance + heldMargin st'.position - netSum st'.trades
      = st.balance + heldMargin st.position - netSum st.trades := by
  unfold envEval at h
  cases hg : envGateUpdate { st with position_was_closed := false } row with
  | error e => simp only [hg] at h; simp at h
  | ok st1 =>
    simp only [hg] at h
    obtain ⟨gp, gb, gt, gn, _, _⟩ := envGateUpdate_ok _ _ _ hg
    have hst1p : st1.position = st.position := gp
    have hst1b : st1.balance = st.balance := gb
    have hst1t : st1.trades = st.trades := gt
    have hst1n : st1.n_bands_hit = st.n_bands_hit := gn
    cases hc : envClosePhase p t st1 row with
    | error e => simp only [hc] at h; simp at h
    | ok st2 =>
      simp only [hc] at h
      rcases envClosePhase_cases p t st1 row st2 hc with heq | ⟨c1, c2, c3, c4, _⟩
      · rw [heq] at h
        have hside1 : st1.position.side = some s := by
          rw [hst1p]
          exact hside
        have hn1 : 1 ≤ st1.n_bands_hit := by
          rw [hst1n]
          exact hn
        have e1 := envEntryPhase_conserve p t st1 row st' s hside1 hn1 h
        obtain ⟨ht, _, _, _⟩ := envEntryPhase_ok p t st1 row st' h
        rw [ht, hst1t, e1, hst1b, hst1p]
      · have hskip := envEntryPhase_skip p t st2 row c3
        rw [hskip] at h
        simp only [Except.ok.injEq] at h
        subst h
        rw [c4, hst1b, hst1p, hst1t]

lemma smaOpen_conserve (st : SmaState) (t : Nat) (s : Side) (m pr : ℚ) (rsn : String)
    (sl : ℚ) (tp : Option ℚ) (hside : st.position.side = none) :
    st.balance - m + heldMargin (st.position.openPos t s m pr rsn sl tp) - netSum st.trades
      = st.balance + heldMargin st.position - netSum st.trades := by
  simp [heldMargin, Position.openPos, hside]

lemma smaEntryPhase_conserve (p : SmaParams) (t : Nat) (st : SmaState) (row : SmaRow)
    (st' : SmaState) (hside : st.position.side = none)
    (h : smaEntryPhase p t st row = .ok st') :
    st'.balance + heldMargin st'.position - netSum st'.trades
      = st.balance + heldMargin st.position - netSum st.trades := by
  unfold smaEntryPhase at h
  by_cases hig : p.ignoreLongs = true
  · rw [if_pos hig] at h
    by_cases higs : p.ignoreShorts = true
    · rw [if_pos higs] at h
      simp only [Except.ok.injEq] at h
      subst h
      rfl
    · rw [if_neg higs] at h
      cases hos : row.open_short with
      | none => simp only [hos] at h; cases h
      | some b =>
        simp only [hos] at h
        cases b with
        | false =>
          simp only [Bool.false_eq_true, if_false, Except.ok.injEq] at h
          subst h
          rfl
        | true =>
          simp only [if_true] at h
          cases hm : smaInitialMargin p st.balance row.close (smaShortSl row) with
          | none => simp only [hm] at h; cases h
          | some m =>
            simp only [hm, Except.ok.injEq] at h
            subst h
            exact smaOpen_conserve st t .short m row.close "Open short" (smaShortSl row)
              (some (smaShortTp row)) hside
  · rw [if_neg hig] at h
    cases hol : row.open_long with
    | none => simp only [hol] at h; cases h
    | some b =>
      simp only [hol] at h
      cases b with
      | false =>
        simp only [Bool.false_eq_true, if_false] at h
        by_cases higs : p.ignoreShorts = true
        · rw [if_pos higs] at h
          simp only [Except.ok.injEq] at h
          subst h
          rfl
        · rw [if_neg higs] at h
          cases hos : row.open_short with
          | none => simp only [hos] at h; cases h
          | some b2 =>
            simp only [hos] at h
            cases b2 with
            | false =>
              simp only [Bool.false_eq_true, if_false, Except.ok.injEq] at h
              subst h
              rfl
            | true =>
              simp only [if_true] at h
              cases hm : smaInitialMargin p st.balance row.close (smaShortSl row) with
              | none => simp only [hm] at h; cases h
              | some m =>
                simp only [hm, Except.ok.injEq] at h
                subst h
                exact smaOpen_conserve st t .short m row.close "Open short" (smaShortSl row)
                  (some (smaShortTp row)) hside
      | true =>
        simp only [if_true] at h
        cases hm : smaInitialMargin p st.balance row.close (smaLongSl row) with
        | none => simp only [hm] at h; cases h
        | some m =>
          simp only [hm, Except.ok.injEq] at h
          subst h
          exact smaOpen_conserve st t .long m row.close "Open long" (smaLongSl row)
            (some (smaLongTp row)) hside

lemma smaEval_conserve (p : SmaParams) (t : Nat) (st : SmaState) (row : SmaRow)
    (st' : SmaState) (h : smaEval p t st row = .ok st') :
    st'.balance + heldMargin st'.position - netSum st'.trades
      = st.balance + heldMargin st.position - netSum st.trades := by
  unfold smaEval at h
  cases hside : st.position.side with
  | none =>
    simp only [hside] at h
    exact smaEntryPhase_conserve p t st row st' hside h
  | some s =>
    simp only [hside] at h
    by_cases h1 : sideCheckSl s st.position.sl_price row.low row.high = true
    · rw [if_pos h1] at h
      simp only [Except.ok.injEq] at h
      subst h
      exact smaCloseTrade_conserve st t st.position.sl_price (slReason s) s hside
    · rw [if_neg h1] at h
      by_cases h2 : sideCheckLiq s st.position.liquidation_price row.low row.high = true
      · rw [if_pos h2] at h
        cases h
      · rw [if_neg h2] at h
        cases htp : st.position.tp_price with
        | none => simp only [htp] at h; cases h
        | some tp =>
          simp only [htp] at h
          by_cases h3 : sideCheckTp s tp row.low row.high = true
          · rw [if_pos h3] at h
            simp only [Except.ok.injEq] at h
            subst h
            exact smaCloseTrade_conserve st t tp (tpReason s) s hside
          · rw [if_neg h3] at h
            cases hcs : smaExitCol row s with
            | none => simp only [hcs] at h; cases h
            | some b =>
              simp only [hcs] at h
              cases b with
              | false =>
                simp only [Bool.false_eq_true, if_false, Except.ok.injEq] at h
                subst h
                rfl
              | true =>
                simp only [if_true, Except.ok.injEq] at h
                subst h
                exact smaCloseTrade_conserve st t row.close (exitReason s) s hside

/-- Concrete SMA configuration for the C1 run: mode "both", 10 percent
position sizing, leverage 1, zero fees. -/
def c1Params : SmaParams := { mode := "both", position_size_percentage := some 10 }

/-- C1 run, bar 0: a long entry signal at close 100. -/
def c1Row0 : SmaRow :=
  { open_ := 100, high := 100, low := 100, close := 100, open_long := some true,
    close_long := some false, open_short := some false, close_short := some false }

/-- C1 run, bar 1: the signal exit fires at close 110 (no stop-loss,
liquidation, or take-profit hit). -/
def c1Row1 : SmaRow :=
  { open_ := 110, high := 110, low := 100, close := 110, open_long := some false,
    close_long := some true, open_short := some false, close_short := some false }

/-- State of the C1 run after bar 0: long open at 100, margin 100 debited. -/
def c1StA : SmaState :=
  { balance := 900
    position :=
      { leverage := 1, open_fee_rate := 0, close_fee_rate := 0, side := some .long,
        behavior := some .long,
        open_time := 0, open_price := 100, open_reason := "Open long", open_fee := 0,
        initial_margin := 100, open_notional_value := 100, amount := 1, sl_price := 85,
        tp_price := some 130, liquidation_price := 0 }
    trades := [] }

/-- State of the C1 run after bar 1: flat, one closed trade with net PnL 10. -/
def c1StB : SmaState :=
  { balance := 1010
    position :=
      { leverage := 1, open_fee_rate := 0, close_fee_rate := 0, side := none,
        behavior := some .long,
        open_time := 0, close_time := 1, open_price := 100, close_price := 110,
        open_reason := "Open long", close_reason := "Exit long", open_fee := 0,
        close_fee := 0, initial_margin := 100, open_notional_value := 100,
        close_notional_value := 110, amount := 1, net_pnl := 10, net_pnl_pct := 10,
        sl_price := 85, tp_price := some 130, liquidation_price := 0 }
    trades :=
      [{ open_time := 0, close_time := 1, open_reason := "Open long",
         close_reason := "Exit long", open_price := 100, close_price := 110,
         initial_margin := 100, net_pnl := 10, net_pnl_pct := 10,
         open_notional_value := 100, close_notional_value := 110, amount := 1,
         open_fee := 0, close_fee := 0, sl_price := 85, tp_price := some 130,
         liquidation_price := 0, open_balance := 900, close_balance := 1010 }] }

lemma c1_step0 : smaEval c1Params 0 (smaInit 1000 1 0) c1Row0 = .ok c1StA := by
  norm_num [c1Params, c1Row0, c1StA, smaEval, smaEntryPhase, smaInit, smaInitialMargin,
    smaLongSl, smaLongTp, Position.openPos, Position.calcOpeningMetrics, initPosition,
    sideLiquidationPrice, SmaParams.ignoreLongs, SmaParams.ignoreShorts]
  decide

lemma c1_step1 : smaEval c1Params 1 c1StA c1Row1 = .ok c1StB := by
  norm_num [c1Params, c1Row1, c1StA, c1StB, smaEval, smaCloseTrade, smaTradeOf,
    tradeInfoOf, Position.closePos, sidePnl, sideCheckSl, sideCheckLiq, sideCheckTp,
    exitReason, smaExitCol]

/-- C1 counterexample: a two-bar SMA run from balance 1000 (leverage 1, zero
fees) opens a long with margin 100 on bar 0 and closes it on bar 1 with net
PnL 10.  The recorded close balance is 1010 = 1000 + 10, not
1000 + 100 + 10 = 1110 as the claim's equation
balance_after = balance_before_open + initial_margin + net_pnl would
require: the margin was already debited at the open, so only the net PnL
moves the balance across the whole trade. -/
theorem c1_counterexample :
    (smaOutcomeTrades (smaRun c1Params 0 (smaInit 1000 1 0) [c1Row0, c1Row1])).map
        (fun tr => (tr.close_balance, tr.initial_margin, tr.net_pnl)) = [(1010, 100, 10)] ∧
    (smaInit 1000 1 0).balance = 1000 ∧
    ¬ ((1010 : ℚ) = 1000 + 100 + 10) := by
  refine ⟨?_, rfl, by norm_num⟩
  have hrun : smaRun c1Params 0 (smaInit 1000 1 0) [c1Row0, c1Row1] = .finished c1StB := by
    simp [smaRun, c1_step0, c1_step1]
  rw [hrun]
  norm_num [smaOutcomeTrades, c1StB]

/-- Concrete envelope configuration for the C1 flat-add anomaly: two
non-nested envelopes 0.2 and 0.1, fixed-amount sizing 100, no price jump
guard. -/
def c1EnvP : EnvParams :=
  { average_type := "SMA", envelopes := [2/10, 1/10], stop_loss_pct := 1/10,
    position_size_fixed_amount := some 100 }

/-- Envelope state with a previously closed long (behavior and the numeric
fields persist from the closed trade, `side` is `none`), gate open,
watermark 0. -/
def c1EnvSt : EnvState :=
  { good_to_trade := true
    position_was_closed := false
    n_bands_hit := 0
    last_position_side := some .long
    balance := 1000
    position :=
      { leverage := 1, open_fee_rate := 0, close_fee_rate := 0, side := none,
        behavior := some .long,
        open_time := 0, close_time := 1, open_price := 90, close_price := 100,
        open_reason := "Open long 1", close_reason := "Exit long", open_fee := 0,
        close_fee := 0, initial_margin := 100, open_notional_value := 100,
        close_notional_value := 1000/9, amount := 10/9, net_pnl := 100/9,
        net_pnl_pct := 100/9, sl_price := 81, tp_price := none,
        liquidation_price := 0 }
    trades := [] }

/-- Bar for the C1 flat-add anomaly: low 85 is between band_low_1 = 80 and
band_low_2 = 90, so band 0 is skipped via `continue` and band 1 fires from
flat. -/
def c1EnvRow : EnvRow := { open_ := 95, high := 95, low := 85, close := 95, average := 100 }

/-- Result of the C1 flat-add bar: `Position.add` succeeded on the flat
position, margin 50 was debited, yet `side` is still `none` — no position is
open and no ledger entry was appended. -/
def c1EnvStB : EnvState :=
  { good_to_trade := true
    position_was_closed := false
    n_bands_hit := 1
    last_position_side := some .long
    balance := 950
    position :=
      { leverage := 1, open_fee_rate := 0, close_fee_rate := 0, side := none,
        behavior := some .long,
        open_time := 0, close_time := 1, open_price := 90, close_price := 100,
        open_reason := "Open long 2", close_reason := "Exit long", open_fee := 0,
        close_fee := 0, initial_margin := 150, open_notional_value := 150,
        close_notional_value := 1000/9, amount := 5/3, net_pnl := 100/9,
        net_pnl_pct := 100/9, sl_price := 81, tp_price := none,
        liquidation_price := 0 }
    trades := [] }

lemma c1_envstep : envEval c1EnvP 2 c1EnvSt c1EnvRow = .ok c1EnvStB := by
  have hs1 : (("both" : String) == "short") = false := by decide
  have hs2 : (("both" : String) == "long") = false := by decide
  norm_num [c1EnvP, c1EnvSt, c1EnvRow, c1EnvStB, envEval, envGateUpdate, envClosePhase,
    envEntryPhase, envEntryLoop, envTrySelect, openLongSig, openShortSig, bandLow, bandHigh,
    EnvParams.ignoreLongs, EnvParams.ignoreShorts, envSizing, round4, envFill,
    Position.addPos, Position.calcOpeningMetrics, sideLiquidationPrice, envSlCalc,
    envOpenReason, Except.map, hs1, hs2, List.range, List.range.loop]
  decide

/-- C1 (amended): for every trade closed by either engine the ledger entry
satisfies close_balance = open_balance + initial_margin + net_pnl, where the
recorded open_balance is the balance immediately before the close credit
(i.e. after the open/add margin debits), not the balance before the open.
In the SMA engine, balance plus committed margin minus cumulative realized
net PnL is invariant under every successful bar evaluation, so across a
whole trade balance_after = balance_before_open + net_pnl; the envelope
engine satisfies the same per-bar invariant on every bar that starts with an
open position, but not unconditionally: adding to a previously closed, flat
position (band 0 skipped, later band fired) debits the balance without
opening a position, violating the invariant, as the concrete bar in the
last conjunct shows. -/
theorem c1_amended :
    (∀ (st : EnvState) (t : Nat) (pr : ℚ) (r : String),
      (envCloseTrade st t pr r).trades = st.trades ++ [envTradeOf st t pr r] ∧
      (envTradeOf st t pr r).open_balance = st.balance ∧
      (envTradeOf st t pr r).close_balance =
        (envTradeOf st t pr r).open_balance + (envTradeOf st t pr r).initial_margin +
          (envTradeOf st t pr r).net_pnl ∧
      (envCloseTrade st t pr r).balance = (envTradeOf st t pr r).close_balance) ∧
    (∀ (st : SmaState) (t : Nat) (pr : ℚ) (r : String),
      (smaCloseTrade st t pr r).trades = st.trades ++ [smaTradeOf st t pr r] ∧
      (smaTradeOf st t pr r).open_balance = st.balance ∧
      (smaTradeOf st t pr r).close_balance =
        (smaTradeOf st t pr r).open_balance + (smaTradeOf st t pr r).initial_margin +
          (smaTradeOf st t pr r).net_pnl ∧
      (smaCloseTrade st t pr r).balance = (smaTradeOf st t pr r).close_balance) ∧
    (∀ (p : SmaParams) (t : Nat) (st : SmaState) (row : SmaRow) (st' : SmaState),
      smaEval p t st row = .ok st' →
      st'.balance + heldMargin st'.position - netSum st'.trades
        = st.balance + heldMargin st.position - netSum st.trades) ∧
    (∀ (p : EnvParams) (t : Nat) (st : EnvState) (row : EnvRow) (st' : EnvState) (s : Side),
      st.position.side = some s → 1 ≤ st.n_bands_hit → envEval p t st row = .ok st' →
      st'.balance + heldMargin st'.position - netSum st'.trades
        = st.balance + heldMargin st.position - netSum st.trades) ∧
    (envEval c1EnvP 2 c1EnvSt c1EnvRow = .ok c1EnvStB ∧
      c1EnvStB.position.side = none ∧
      c1EnvStB.trades = c1EnvSt.trades ∧
      ¬ (c1EnvStB.balance + heldMargin c1EnvStB.position - netSum c1EnvStB.trades
        = c1EnvSt.balance + heldMargin c1EnvSt.position - netSum c1EnvSt.trades)) := by
  refine ⟨fun st t pr r => ?_, fun st t pr r => ?_,
    fun p t st row st' h => smaEval_conserve p t st row st' h,
    fun p t st row st' s hside hn h => envEval_conserve p t st row st' s hside hn h,
    c1_envstep, rfl, rfl, by norm_num [c1EnvSt, c1EnvStB, heldMargin, netSum]⟩
  · obtain ⟨e1, e2⟩ := envTradeOf_ledger_identity st t pr r
    obtain ⟨f1, _, f3, _⟩ := envCloseTrade_fields st t pr r
    exact ⟨f1, e1, e2, f3⟩
  · obtain ⟨e1, e2⟩ := smaTradeOf_ledger_identity st t pr r
    obtain ⟨f1, _, f3⟩ := smaCloseTrade_fields st t pr r
    exact ⟨f1, e1, e2, f3⟩

/-- Witness for C1 (amended): the conservation conjunct applied to the
concrete bar-1 close of the C1 run. -/
theorem c1_witness :
    smaEval c1Params 1 c1StA c1Row1 = .ok c1StB ∧
    c1StB.balance + heldMargin c1StB.position - netSum c1StB.trades
      = c1StA.balance + heldMargin c1StA.position - netSum c1StA.trades :=
  ⟨c1_step1, c1_amended.2.2.1 c1Params 1 c1StA c1Row1 c1StB c1_step1⟩

/-- C2: in either engine, on a bar where an open position's liquidation
check fires and no higher-priority close fired first (envelope: adverse-open
guard and stop-loss; SMA: stop-loss), the run halts immediately at that bar
with the liquidation outcome (reporting the bar time and the liquidation
price): the remaining bars `rest` are never processed (the result is the
same for every `rest`), and the trade ledger at the halt is exactly the
ledger from before the bar — no entry for the in-flight position, which is
still open in the halt state. -/
theorem c2_liquidation_halts :
    (∀ (p : EnvParams) (t : Nat) (st : EnvState) (row : EnvRow)
        (rest : List EnvRow) (s : Side),
      st.good_to_trade = true →
      st.position.side = some s →
      envJumpCond p st.position row s = false →
      sideCheckSl s st.position.sl_price row.low row.high = false →
      sideCheckLiq s st.position.liquidation_price row.low row.high = true →
      envRun p t st (row :: rest) =
        .halted (.liquidation t st.position.liquidation_price
          { st with position_was_closed := false }) ∧
      (envHaltState (.liquidation t st.position.liquidation_price
          { st with position_was_closed := false })).trades = st.trades ∧
      (envHaltState (.liquidation t st.position.liquidation_price
          { st with position_was_closed := false })).position.side = some s) ∧
    (∀ (q : SmaParams) (t : Nat) (st : SmaState) (row : SmaRow)
        (rest : List SmaRow) (s : Side),
      st.position.side = some s →
      sideCheckSl s st.position.sl_price row.low row.high = false →
      sideCheckLiq s st.position.liquidation_price row.low row.high = true →
      smaRun q t st (row :: rest) =
        .halted (.liquidation t st.position.liquidation_price st) ∧
      (smaHaltState (.liquidation t st.position.liquidation_price st)).trades = st.trades ∧
      (smaHaltState (.liquidation t st.position.liquidation_price st)).position.side
        = some s) := by
  constructor
  · intro p t st row rest s hgood hside hjump hsl hliq
    have heval : envEval p t st row =
        .error (.liquidation t st.position.liquidation_price
          { st with position_was_closed := false }) := by
      unfold envEval
      have h1 : envGateUpdate { st with position_was_closed := false } row =
          .ok { st with position_was_closed := false } :=
        envGateUpdate_of_good _ _ hgood
      simp only [h1]
      unfold envClosePhase
      simp only [hside, hjump, Bool.false_eq_true, if_false, hsl, hliq, if_true]
    refine ⟨?_, rfl, hside⟩
    simp [envRun, heval]
  · intro q t st row rest s hside hsl hliq
    have heval : smaEval q t st row =
        .error (.liquidation t st.position.liquidation_price st) := by
      unfold smaEval
      simp only [hside, hsl, Bool.false_eq_true, if_false, hliq, if_true]
    refine ⟨?_, rfl, hside⟩
    simp [smaRun, heval]

/-- Concrete envelope configuration for the C2 witness (no adverse-open
guard configured). -/
def c2P : EnvParams :=
  { average_type := "SMA", mode := "both", envelopes := [1 / 10], stop_loss_pct := 1 / 2,
    position_size_fixed_amount := some 100 }

/-- Concrete engine state for the C2 witness: a long open at 100 with
leverage 10, stored stop-loss 50 and liquidation price 90. -/
def c2St : EnvState :=
  { good_to_trade := true
    position_was_closed := false
    n_bands_hit := 1
    last_position_side := some .long
    balance := 900
    position :=
      { leverage := 10, open_fee_rate := 0, close_fee_rate := 0, side := some .long,
        behavior := some .long,
        open_time := 3, open_price := 100, open_reason := "Open long 1",
        initial_margin := 100, open_notional_value := 1000, amount := 10,
        sl_price := 50, liquidation_price := 90 }
    trades := [] }

/-- C2 witness bar: low 85 pierces the liquidation price 90 but not the
stop-loss 50. -/
def c2Row : EnvRow := { open_ := 100, high := 110, low := 85, close := 95, average := 100 }

/-- Concrete SMA configuration for the C2 witness. -/
def c2SmaP : SmaParams := { mode := "both", position_size_percentage := some 10 }

/-- Concrete SMA engine state for the C2 witness: a long open at 100 with
leverage 10, stored stop-loss 50, take-profit 130, liquidation price 90. -/
def c2SmaSt : SmaState :=
  { balance := 900
    position :=
      { leverage := 10, open_fee_rate := 0, close_fee_rate := 0, side := some .long,
        behavior := some .long,
        open_time := 3, open_price := 100, open_reason := "Open long",
        initial_margin := 100, open_notional_value := 1000, amount := 10,
        sl_price := 50, tp_price := some 130, liquidation_price := 90 }
    trades := [] }

/-- C2 witness bar for the SMA engine: low 85 pierces the liquidation price
90 but not the stop-loss 50. -/
def c2SmaRow : SmaRow :=
  { open_ := 100, high := 110, low := 85, close := 95, open_long := some false,
    close_long := some false, open_short := some false, close_short := some false }

/-- Witness for C2: both conjuncts of the theorem applied to concrete
liquidation bars. -/
theorem c2_witness :
    (c2St.good_to_trade = true ∧
      c2St.position.side = some .long ∧
      envJumpCond c2P c2St.position c2Row .long = false ∧
      sideCheckSl .long c2St.position.sl_price c2Row.low c2Row.high = false ∧
      sideCheckLiq .long c2St.position.liquidation_price c2Row.low c2Row.high = true ∧
      envRun c2P 5 c2St [c2Row] =
        .halted (.liquidation 5 c2St.position.liquidation_price
          { c2St with position_was_closed := false })) ∧
    (c2SmaSt.position.side = some .long ∧
      sideCheckSl .long c2SmaSt.position.sl_price c2SmaRow.low c2SmaRow.high = false ∧
      sideCheckLiq .long c2SmaSt.position.liquidation_price c2SmaRow.low c2SmaRow.high
        = true ∧
      smaRun c2SmaP 5 c2SmaSt [c2SmaRow] =
        .halted (.liquidation 5 c2SmaSt.position.liquidation_price c2SmaSt)) :=
  ⟨⟨rfl, rfl, rfl,
    by norm_num [sideCheckSl, c2St, c2Row],
    by norm_num [sideCheckLiq, c2St, c2Row],
    (c2_liquidation_halts.1 c2P 5 c2St c2Row [] .long rfl rfl rfl
      (by norm_num [sideCheckSl, c2St, c2Row])
      (by norm_num [sideCheckLiq, c2St, c2Row])).1⟩,
   ⟨rfl,
    by norm_num [sideCheckSl, c2SmaSt, c2SmaRow],
    by norm_num [sideCheckLiq, c2SmaSt, c2SmaRow],
    (c2_liquidation_halts.2 c2SmaP 5 c2SmaSt c2SmaRow [] .long rfl
      (by norm_num [sideCheckSl, c2SmaSt, c2SmaRow])
      (by norm_num [sideCheckLiq, c2SmaSt, c2SmaRow])).1⟩⟩

lemma envGateUpdate_err (st : EnvState) (row : EnvRow) (e : EnvHalt)
    (h : envGateUpdate st row = .error e) : e = .keyError st := by
  unfold envGateUpdate at h
  by_cases hg : st.good_to_trade = true
  · simp [hg] at h
  · simp only [hg, Bool.false_eq_true, if_false] at h
    cases hl : st.last_position_side with
    | none => simp only [hl, Except.error.injEq] at h; exact h.symm
    | some s => cases s <;> simp [hl] at h

lemma envTrySelect_err (p : EnvParams) (st : EnvState) (row : EnvRow) (i : Nat) (e : EnvHalt)
    (h : envTrySelect p st row i = .error e) : e = .keyError st := by
  unfold envTrySelect at h
  cases hside : st.position.side with
  | none =>
    simp only [hside] at h
    cases hl : openLongSig p row i with
    | none => simp only [hl, Except.error.injEq] at h; exact h.symm
    | some b =>
      simp only [hl] at h
      cases b with
      | true => simp at h
      | false =>
        simp only [Bool.false_eq_true, if_false] at h
        cases hs : openShortSig p row i with
        | none => simp only [hs, Except.error.injEq] at h; exact h.symm
        | some b2 =>
          simp only [hs] at h
          cases b2 with
          | true => simp at h
          | false => simp at h
  | some s0 =>
    cases s0 with
    | short =>
      simp only [hside] at h
      cases hs : openShortSig p row i with
      | none => simp only [hs, Except.error.injEq] at h; exact h.symm
      | some b2 =>
        simp only [hs] at h
        cases b2 with
        | true => simp at h
        | false => simp at h
    | long =>
      simp only [hside] at h
      cases hl : openLongSig p row i with
      | none => simp only [hl, Except.error.injEq] at h; exact h.symm
      | some b =>
        simp only [hl] at h
        cases b with
        | true => simp at h
        | false => simp at h

lemma envFill_err (p : EnvParams) (t : Nat) (st : EnvState) (i : Nat) (s : Side)
    (price m : ℚ) (e : EnvHalt) (h : envFill p t st i s price m = .error e) :
    (envHaltState e).position = st.position ∧ (envHaltState e).trades = st.trades := by
  unfold envFill at h
  by_cases hi : i = 0
  · simp [hi] at h
  · simp only [hi, if_neg hi, if_false] at h
    cases ha : Position.addPos { st with
        last_position_side := some s
        balance := st.balance - m
        n_bands_hit := st.n_bands_hit + 1 }.position m price (envOpenReason s (i + 1)) with
    | none =>
      rw [ha] at h
      simp only [Except.error.injEq] at h
      rw [← h]
      exact ⟨rfl, rfl⟩
    | some pos => rw [ha] at h; cases h

lemma envEntryLoop_noShort_err (p : EnvParams) (t : Nat) (b : ℚ) (row : EnvRow)
    (hms : p.ignoreShorts = true) (is : List Nat) :
    ∀ (st : EnvState) (e : EnvHalt),
      st.position.side ≠ some .short →
      envEntryLoop p t b row is st = .error e →
      (envHaltState e).position.side ≠ some .short := by
  induction is with
  | nil =>
    intro st e _ h
    simp [envEntryLoop] at h
  | cons i rest ih =>
    intro st e hside h
    simp only [envEntryLoop] at h
    cases hsel : envTrySelect p st row i with
    | error e0 =>
      simp only [hsel, Except.error.injEq] at h
      rw [← h, envTrySelect_err p st row i e0 hsel]
      exact hside
    | ok osel =>
      cases osel with
      | none =>
        simp only [hsel] at h
        exact ih st e hside h
      | some sel =>
        obtain ⟨s, price⟩ := sel
        simp only [hsel] at h
        have hlong : s = .long := envTrySelect_noShort p st row i s price hms hsel
        cases hm : envSizing p b with
        | none =>
          simp only [hm, Except.error.injEq] at h
          rw [← h]
          exact hside
        | some m =>
          simp only [hm] at h
          cases hf : envFill p t st i s price m with
          | error e0 =>
            simp only [hf, Except.error.injEq] at h
            rw [← h]
            rw [(envFill_err p t st i s price m e0 hf).1]
            exact hside
          | ok stf =>
            simp only [hf] at h
            have hstf : stf.position.side ≠ some .short := by
              obtain ⟨_, _, _, _, _, _, hor⟩ := envFill_ok p t st i s price m stf hf
              rcases hor with hor | hor
              · rw [hor, hlong]
                simp
              · rw [hor]
                exact hside
            cases hrec : envEntryLoop p t b row rest stf with
            | error e0 =>
              simp only [hrec, Except.error.injEq] at h
              rw [← h]
              exact ih stf e0 hstf hrec
            | ok pr => obtain ⟨st2, fl⟩ := pr; simp only [hrec] at h; cases h

lemma envEntryPhase_noShort_err (p : EnvParams) (t : Nat) (st : EnvState) (row : EnvRow)
    (e : EnvHalt) (hms : p.ignoreShorts = true)
    (hside : st.position.side ≠ some .short) (h : envEntryPhase p t st row = .error e) :
    (envHaltState e).position.side ≠ some .short := by
  unfold envEntryPhase at h
  split at h
  · cases hl : envEntryLoop p t st.balance row
        ((List.range p.envelopes.length).drop st.n_bands_hit) st with
    | error e0 =>
      rw [hl] at h
      simp only [Except.map, Except.error.injEq] at h
      rw [← h]
      exact envEntryLoop_noShort_err p t st.balance row hms _ st e0 hside hl
    | ok pr => obtain ⟨st2, fl⟩ := pr; rw [hl] at h; simp [Except.map] at h
  · cases h

lemma envClosePhase_err (p : EnvParams) (t : Nat) (st : EnvState) (row : EnvRow)
    (e : EnvHalt) (h : envClosePhase p t st row = .error e) : envHaltState e = st := by
  unfold envClosePhase at h
  cases hside : st.position.side with
  | none => simp only [hside] at h; cases h
  | some s =>
    simp only [hside] at h
    by_cases hj : envJumpCond p st.position row s = true
    · rw [if_pos hj] at h; cases h
    · rw [if_neg hj] at h
      by_cases hsl : sideCheckSl s st.position.sl_price row.low row.high = true
      · rw [if_pos hsl] at h; cases h
      · rw [if_neg hsl] at h
        by_cases hlq : sideCheckLiq s st.position.liquidation_price row.low row.high = true
        · rw [if_pos hlq] at h
          simp only [Except.error.injEq] at h
          rw [← h]
          rfl
        · rw [if_neg hlq] at h
          cases hcs : closeSig p row s with
          | none =>
            simp only [hcs, Except.error.injEq] at h
            rw [← h]
            rfl
          | some b =>
            simp only [hcs] at h
            cases b with
            | false => simp at h
            | true => simp at h

lemma envEval_noShort_ok (p : EnvParams) (t : Nat) (st : EnvState) (row : EnvRow)
    (st' : EnvState) (hms : p.ignoreShorts = true)
    (hside : st.position.side ≠ some .short) (h : envEval p t st row = .ok st') :
    st'.position.side ≠ some .short := by
  unfold envEval at h
  cases hg : envGateUpdate { st with position_was_closed := false } row with
  | error e => simp only [hg] at h; simp at h
  | ok st1 =>
    simp only [hg] at h
    have hside1 : st1.position.side ≠ some .short := by
      rw [(envGateUpdate_ok _ _ _ hg).1]
      exact hside
    cases hc : envClosePhase p t st1 row with
    | error e => simp only [hc] at h; simp at h
    | ok st2 =>
      simp only [hc] at h
      have hside2 : st2.position.side ≠ some .short := by
        rcases envClosePhase_cases p t st1 row st2 hc with heq | ⟨c1, _, _, _, _⟩
        · rw [heq]
          exact hside1
        · rw [c1]
          simp
      exact envEntryPhase_noShort p t st2 row st' hms hside2 h

lemma envEval_noShort_err (p : EnvParams) (t : Nat) (st : EnvState) (row : EnvRow)
    (e : EnvHalt) (hms : p.ignoreShorts = true)
    (hside : st.position.side ≠ some .short) (h : envEval p t st row = .error e) :
    (envHaltState e).position.side ≠ some .short := by
  unfold envEval at h
  cases hg : envGateUpdate { st with position_was_closed := false } row with
  | error e0 =>
    simp only [hg, Except.error.injEq] at h
    rw [← h, envGateUpdate_err _ _ _ hg]
    exact hside
  | ok st1 =>
    simp only [hg] at h
    have hside1 : st1.position.side ≠ some .short := by
      rw [(envGateUpdate_ok _ _ _ hg).1]
      exact hside
    cases hc : envClosePhase p t st1 row with
    | error e0 =>
      simp only [hc, Except.error.injEq] at h
      rw [← h, envClosePhase_err p t st1 row e0 hc]
      exact hside1
    | ok st2 =>
      simp only [hc] at h
      have hside2 : st2.position.side ≠ some .short := by
        rcases envClosePhase_cases p t st1 row st2 hc with heq | ⟨c1, _, _, _, _⟩
        · rw [heq]
          exact hside1
        · rw [c1]
          simp
      exact envEntryPhase_noShort_err p t st2 row e hms hside2 h

lemma envRun_noShort (p : EnvParams) (hms : p.ignoreShorts = true) :
    ∀ (bars : List EnvRow) (t : Nat) (st : EnvState),
      st.position.side ≠ some .short →
      (envOutcomeState (envRun p t st bars)).position.side ≠ some .short := by
  intro bars
  induction bars with
  | nil => intro t st hside; exact hside
  | cons row rest ih =>
    intro t st hside
    show (envOutcomeState (envRun p t st (row :: rest))).position.side ≠ some .short
    unfold envRun
    cases he : envEval p t st row with
    | error e => exact envEval_noShort_err p t st row e hms hside he
    | ok st' => exact ih (t + 1) st' (envEval_noShort_ok p t st row st' hms hside he)

lemma smaEntryPhase_err_state (p : SmaParams) (t : Nat) (st : SmaState) (row : SmaRow)
    (e : SmaHalt) (h : smaEntryPhase p t st row = .error e) : smaHaltState e = st := by
  unfold smaEntryPhase at h
  by_cases hig : p.ignoreLongs = true
  · rw [if_pos hig] at h
    by_cases higs : p.ignoreShorts = true
    · rw [if_pos higs] at h; cases h
    · rw [if_neg higs] at h
      cases hos : row.open_short with
      | none =>
        simp only [hos, Except.error.injEq] at h
        rw [← h]
        rfl
      | some b =>
        simp only [hos] at h
        cases b with
        | false => simp at h
        | true =>
          simp only [if_true] at h
          cases hm : smaInitialMargin p st.balance row.close (smaShortSl row) with
          | none =>
            simp only [hm, Except.error.injEq] at h
            rw [← h]
            rfl
          | some m => simp only [hm] at h; cases h
  · rw [if_neg hig] at h
    cases hol : row.open_long with
    | none =>
      simp only [hol, Except.error.injEq] at h
      rw [← h]
      rfl
    | some b =>
      simp only [hol] at h
      cases b with
      | true =>
        simp only [if_true] at h
        cases hm : smaInitialMargin p st.balance row.close (smaLongSl row) with
        | none =>
          simp only [hm, Except.error.injEq] at h
          rw [← h]
          rfl
        | some m => simp only [hm] at h; cases h
      | false =>
        simp only [Bool.false_eq_true, if_false] at h
        by_cases higs : p.ignoreShorts = true
        · rw [if_pos higs] at h; cases h
        · rw [if_neg higs] at h
          cases hos : row.open_short with
          | none =>
            simp only [hos, Except.error.injEq] at h
            rw [← h]
            rfl
          | some b2 =>
            simp only [hos] at h
            cases b2 with
            | false => simp at h
            | true =>
              simp only [if_true] at h
              cases hm : smaInitialMargin p st.balance row.close (smaShortSl row) with
              | none =>
                simp only [hm, Except.error.injEq] at h
                rw [← h]
                rfl
              | some m => simp only [hm] at h; cases h

lemma smaEval_err_state (p : SmaParams) (t : Nat) (st : SmaState) (row : SmaRow)
    (e : SmaHalt) (h : smaEval p t st row = .error e) : smaHaltState e = st := by
  unfold smaEval at h
  cases hside : st.position.side with
  | none =>
    simp only [hside] at h
    exact smaEntryPhase_err_state p t st row e h
  | some s =>
    simp only [hside] at h
    by_cases h1 : sideCheckSl s st.position.sl_price row.low row.high = true
    · rw [if_pos h1] at h; cases h
    · rw [if_neg h1] at h
      by_cases h2 : sideCheckLiq s st.position.liquidation_price row.low row.high = true
      · rw [if_pos h2] at h
        simp only [Except.error.injEq] at h
        rw [← h]
        rfl
      · rw [if_neg h2] at h
        cases htp : st.position.tp_price with
        | none =>
          simp only [htp, Except.error.injEq] at h
          rw [← h]
          rfl
        | some tp =>
          simp only [htp] at h
          by_cases h3 : sideCheckTp s tp row.low row.high = true
          · rw [if_pos h3] at h; cases h
          · rw [if_neg h3] at h
            cases hcs : smaExitCol row s with
            | none =>
              simp only [hcs, Except.error.injEq] at h
              rw [← h]
              rfl
            | some b =>
              simp only [hcs] at h
              cases b with
              | false => simp at h
              | true => simp at h

lemma smaEval_noShort_ok (p : SmaParams) (t : Nat) (st : SmaState) (row : SmaRow)
    (st' : SmaState) (hms : p.ignoreShorts = true)
    (hside : st.position.side ≠ some .short) (h : smaEval p t st row = .ok st') :
    st'.position.side ≠ some .short := by
  unfold smaEval at h
  cases hside0 : st.position.side with
  | some s =>
    simp only [hside0] at h
    by_cases h1 : sideCheckSl s st.position.sl_price row.low row.high = true
    · rw [if_pos h1] at h
      simp only [Except.ok.injEq] at h
      rw [← h, (smaCloseTrade_fields st t st.position.sl_price (slReason s)).2.1]
      simp
    · rw [if_neg h1] at h
      by_cases h2 : sideCheckLiq s st.position.liquidation_price row.low row.high = true
      · rw [if_pos h2] at h; cases h
      · rw [if_neg h2] at h
        cases htp : st.position.tp_price with
        | none => simp only [htp] at h; cases h
        | some tp =>
          simp only [htp] at h
          by_cases h3 : sideCheckTp s tp row.low row.high = true
          · rw [if_pos h3] at h
            simp only [Except.ok.injEq] at h
            rw [← h, (smaCloseTrade_fields st t tp (tpReason s)).2.1]
            simp
          · rw [if_neg h3] at h
            cases hcs : smaExitCol row s with
            | none => simp only [hcs] at h; cases h
            | some b =>
              simp only [hcs] at h
              cases b with
              | true =>
                simp only [if_true, Except.ok.injEq] at h
                rw [← h, (smaCloseTrade_fields st t row.close (exitReason s)).2.1]
                simp
              | false =>
                simp only [Bool.false_eq_true, if_false, Except.ok.injEq] at h
                rw [← h]
                exact hside
  | none =>
    simp only [hside0] at h
    unfold smaEntryPhase at h
    have htryShort : (if p.ignoreShorts then Except.ok st
        else match row.open_short with
          | none => Except.error (SmaHalt.keyError st)
          | some b =>
            if b then
              match smaInitialMargin p st.balance row.close (smaShortSl row) with
              | none => Except.error (SmaHalt.keyError st)
              | some m =>
                Except.ok { st with
                  balance := st.balance - m
                  position := st.position.openPos t .short m row.close "Open short"
                    (smaShortSl row) (some (smaShortTp row)) }
            else Except.ok st) = Except.ok st := if_pos hms
    by_cases hig : p.ignoreLongs = true
    · rw [if_pos hig, htryShort] at h
      simp only [Except.ok.injEq] at h
      rw [← h]
      rw [hside0]
      simp
    · rw [if_neg hig] at h
      cases hol : row.open_long with
      | none => simp only [hol] at h; cases h
      | some b =>
        simp only [hol] at h
        cases b with
        | true =>
          simp only [if_true] at h
          cases hm : smaInitialMargin p st.balance row.close (smaLongSl row) with
          | none => simp only [hm] at h; cases h
          | some m =>
            simp only [hm, Except.ok.injEq] at h
            rw [← h]
            simp [Position.openPos]
        | false =>
          simp only [Bool.false_eq_true, if_false] at h
          rw [htryShort] at h
          simp only [Except.ok.injEq] at h
          rw [← h]
          rw [hside0]
          simp

lemma smaRun_noShort (p : SmaParams) (hms : p.ignoreShorts = true) :
    ∀ (bars : List SmaRow) (t : Nat) (st : SmaState),
      st.position.side ≠ some .short →
      (smaOutcomeState (smaRun p t st bars)).position.side ≠ some .short := by
  intro bars
  induction bars with
  | nil => intro t st hside; exact hside
  | cons row rest ih =>
    intro t st hside
    show (smaOutcomeState (smaRun p t st (row :: rest))).position.side ≠ some .short
    unfold smaRun
    cases he : smaEval p t st row with
    | error e =>
      show (smaHaltState e).position.side ≠ some .short
      rw [smaEval_err_state p t st row e he]
      exact hside
    | ok st' => exact ih (t + 1) st' (smaEval_noShort_ok p t st row st' hms hside he)

/-- C8: with trade mode "long", neither engine ever has a short position
open: every successful bar evaluation preserves "no short is open", and any
run started without a short open (in particular from the initial flat
state) ends — normally or halted — without a short ever having been opened,
regardless of the short entry signal values carried by the bars.  (In the
envelope engine, reaching the short-entry check in long mode raises a
`KeyError` — the short signal columns were never populated — so such a run
stops rather than opening a short.) -/
theorem c8_long_mode_never_short (p : EnvParams) (q : SmaParams)
    (hp : p.mode = "long") (hq : q.mode = "long") :
    (∀ (t : Nat) (st : EnvState) (row : EnvRow) (st' : EnvState),
      envEval p t st row = .ok st' → st.position.side ≠ some .short →
      st'.position.side ≠ some .short) ∧
    (∀ (bars : List EnvRow) (t : Nat) (st : EnvState),
      st.position.side ≠ some .short →
      (envOutcomeState (envRun p t st bars)).position.side ≠ some .short) ∧
    (∀ (t : Nat) (st : SmaState) (row : SmaRow) (st' : SmaState),
      smaEval q t st row = .ok st' → st.position.side ≠ some .short →
      st'.position.side ≠ some .short) ∧
    (∀ (bars : List SmaRow) (t : Nat) (st : SmaState),
      st.position.side ≠ some .short →
      (smaOutcomeState (smaRun q t st bars)).position.side ≠ some .short) := by
  have hms : p.ignoreShorts = true := by simp [EnvParams.ignoreShorts, hp]
  have hqs : q.ignoreShorts = true := by simp [SmaParams.ignoreShorts, hq]
  exact ⟨fun t st row st' h hside => envEval_noShort_ok p t st row st' hms hside h,
    fun bars t st hside => envRun_noShort p hms bars t st hside,
    fun t st row st' h hside => smaEval_noShort_ok q t st row st' hqs hside h,
    fun bars t st hside => smaRun_noShort q hqs bars t st hside⟩

/-- C8 witness configuration: envelope in long mode. -/
def c8P : EnvParams :=
  { average_type := "SMA", mode := "long", envelopes := [1 / 10], stop_loss_pct := 1 / 10,
    position_size_fixed_amount := some 100 }

/-- C8 witness configuration: SMA strategy in long mode. -/
def c8Q : SmaParams := { mode := "long", position_size_percentage := some 10 }

/-- C8 witness bar: the would-be short trigger holds (high 120 is above the
upper band 1000/9), the long trigger does not. -/
def c8Row : EnvRow := { open_ := 100, high := 120, low := 95, close := 100, average := 100 }

/-- C8 witness SMA bar: the short entry signal column is true. -/
def c8SmaRow : SmaRow :=
  { open_ := 100, high := 100, low := 100, close := 100, open_long := some false,
    close_long := some false, open_short := some true, close_short := some false }

/-- Witness for C8: the run-level conjuncts applied to one-bar runs from the
initial states, with the short signals true. -/
theorem c8_witness :
    c8P.mode = "long" ∧ c8Q.mode = "long" ∧
    (envInit 1000 1 0 0).position.side ≠ some .short ∧
    (smaInit 1000 1 0).position.side ≠ some .short ∧
    c8SmaRow.open_short = some true ∧
    (envOutcomeState (envRun c8P 0 (envInit 1000 1 0 0) [c8Row])).position.side
      ≠ some .short ∧
    (smaOutcomeState (smaRun c8Q 0 (smaInit 1000 1 0) [c8SmaRow])).position.side
      ≠ some .short :=
  ⟨rfl, rfl, by simp [envInit, initPosition], by simp [smaInit, initPosition], rfl,
    (c8_long_mode_never_short c8P c8Q rfl rfl).2.1 [c8Row] 0 (envInit 1000 1 0 0)
      (by simp [envInit, initPosition]),
    (c8_long_mode_never_short c8P c8Q rfl rfl).2.2.2 [c8SmaRow] 0 (smaInit 1000 1 0)
      (by simp [smaInit, initPosition])⟩

/-- C9: watermark discipline of the envelope engine.  (i) On any bar that
appends a ledger entry (a full close), the watermark `n_bands_hit` ends the
bar at 0 — the reset happens exactly at closes; (ii) on any bar without a
close the watermark never decreases; (iii) the entry loop runs over exactly
the band indices from the current watermark up (bands below the watermark
are not checked), every band it fills has index at least the entering
watermark, the filled indices are strictly increasing (so a band filled on
this bar is not refilled on this bar), the watermark advances by exactly one
per filled band, and the loop appends no ledger entries. -/
theorem c9_watermark :
    (∀ (p : EnvParams) (t : Nat) (st : EnvState) (row : EnvRow) (st' : EnvState),
      envEval p t st row = .ok st' → st.trades.length < st'.trades.length →
      st'.n_bands_hit = 0) ∧
    (∀ (p : EnvParams) (t : Nat) (st : EnvState) (row : EnvRow) (st' : EnvState),
      envEval p t st row = .ok st' → st'.trades.length = st.trades.length →
      st.n_bands_hit ≤ st'.n_bands_hit) ∧
    (∀ (p : EnvParams) (t : Nat) (st : EnvState) (row : EnvRow) (st2 : EnvState)
      (fills : List Nat),
      envEntryLoop p t st.balance row
        ((List.range p.envelopes.length).drop st.n_bands_hit) st = .ok (st2, fills) →
      fills.Sublist ((List.range p.envelopes.length).drop st.n_bands_hit) ∧
      (∀ j ∈ fills, st.n_bands_hit ≤ j) ∧
      List.Pairwise (fun a c => a < c) fills ∧
      st2.n_bands_hit = st.n_bands_hit + fills.length ∧
      st2.trades = st.trades) := by
  refine ⟨?_, ?_, ?_⟩
  · intro p t st row st' h hlen
    unfold envEval at h
    cases hg : envGateUpdate { st with position_was_closed := false } row with
    | error e => simp only [hg] at h; simp at h
    | ok st1 =>
      simp only [hg] at h
      obtain ⟨_, _, gt, gn, _, _⟩ := envGateUpdate_ok _ _ _ hg
      cases hc : envClosePhase p t st1 row with
      | error e => simp only [hc] at h; simp at h
      | ok st2 =>
        simp only [hc] at h
        rcases envClosePhase_cases p t st1 row st2 hc with heq | ⟨_, c2, c3, _, _⟩
        · rw [heq] at h
          obtain ⟨ht, _, _, _⟩ := envEntryPhase_ok p t st1 row st' h
          rw [ht, gt] at hlen
          exact absurd hlen (by simp)
        · have hskip := envEntryPhase_skip p t st2 row c3
          rw [hskip] at h
          simp only [Except.ok.injEq] at h
          rw [← h]
          exact c2
  · intro p t st row st' h hlen
    unfold envEval at h
    cases hg : envGateUpdate { st with position_was_closed := false } row with
    | error e => simp only [hg] at h; simp at h
    | ok st1 =>
      simp only [hg] at h
      obtain ⟨_, _, gt, gn, _, _⟩ := envGateUpdate_ok _ _ _ hg
      cases hc : envClosePhase p t st1 row with
      | error e => simp only [hc] at h; simp at h
      | ok st2 =>
        simp only [hc] at h
        rcases envClosePhase_cases p t st1 row st2 hc with heq | ⟨_, _, c3, _, c5⟩
        · rw [heq] at h
          obtain ⟨_, _, _, hn⟩ := envEntryPhase_ok p t st1 row st' h
          have hst1n : st1.n_bands_hit = st.n_bands_hit := by rw [gn]
          rw [← hst1n]
          exact hn
        · have hskip := envEntryPhase_skip p t st2 row c3
          rw [hskip] at h
          simp only [Except.ok.injEq] at h
          rw [← h] at hlen
          have hst1t : st1.trades = st.trades := by rw [gt]
          rw [c5, hst1t] at hlen
          omega
  · intro p t st row st2 fills h
    obtain ⟨h1, _, _, h4, h5, _⟩ := envEntryLoop_spec p t st.balance row _ st st2 fills h
    have hpwdrop : ((List.range p.envelopes.length).drop st.n_bands_hit).Pairwise
        (fun a c => a < c) :=
      (List.pairwise_lt_range _).sublist (List.drop_sublist _ _)
    exact ⟨h5, fun j hj => mem_drop_range (h5.subset hj), hpwdrop.sublist h5, h4, h1⟩

/-- C9 witness configuration: two envelope bands at 10 and 20 percent,
fixed-amount sizing. -/
def c9P : EnvParams :=
  { average_type := "SMA", mode := "both", envelopes := [1 / 10, 2 / 10],
    stop_loss_pct := 1 / 10, position_size_fixed_amount := some 100 }

/-- C9 witness state: a long open with band 0 already filled (watermark 1). -/
def c9St : EnvState :=
  { good_to_trade := true
    position_was_closed := false
    n_bands_hit := 1
    last_position_side := some .long
    balance := 900
    position :=
      { leverage := 1, open_fee_rate := 0, close_fee_rate := 0, side := some .long,
        behavior := some .long,
        open_time := 0, open_price := 100, open_reason := "Open long 1",
        initial_margin := 100, open_notional_value := 100, amount := 1,
        sl_price := 90, liquidation_price := 0 }
    trades := [] }

/-- C9 witness bar: low 75 reaches the second band (80) below the average
100; the already-filled first band (90) is not rechecked. -/
def c9Row : EnvRow := { open_ := 100, high := 100, low := 75, close := 85, average := 100 }

/-- C9 witness state after the entry loop: band index 1 filled as a second
leg (margin 50 at price 80), watermark advanced to 2. -/
def c9StAfter : EnvState :=
  { good_to_trade := true
    position_was_closed := false
    n_bands_hit := 2
    last_position_side := some .long
    balance := 850
    position :=
      { leverage := 1, open_fee_rate := 0, close_fee_rate := 0, side := some .long,
        behavior := some .long,
        open_time := 0, open_price := 1200 / 13, open_reason := "Open long 2",
        initial_margin := 150, open_notional_value := 150, amount := 13 / 8,
        sl_price := 1080 / 13, liquidation_price := 0 }
    trades := [] }

lemma c9_loopstep :
    envEntryLoop c9P 7 c9St.balance c9Row
      ((List.range c9P.envelopes.length).drop c9St.n_bands_hit) c9St
      = .ok (c9StAfter, [1]) := by
  have hs1 : (("both" : String) == "short") = false := by decide
  have hs2 : (("both" : String) == "long") = false := by decide
  norm_num [c9P, c9St, c9Row, c9StAfter, envEntryLoop, envTrySelect, openLongSig,
    openShortSig, bandLow, bandHigh, envSizing, round4, envFill, Position.addPos,
    Position.calcOpeningMetrics, envSlCalc, envOpenReason, EnvParams.ignoreLongs,
    EnvParams.ignoreShorts, hs1, hs2, sideLiquidationPrice, List.range, List.range.loop]
  decide

/-- Witness for C9: the entry-loop conjunct applied to the concrete
second-leg fill, showing the fill list [1] is above the watermark 1 and the
watermark advances to 2 with no ledger entry appended. -/
theorem c9_witness :
    envEntryLoop c9P 7 c9St.balance c9Row
      ((List.range c9P.envelopes.length).drop c9St.n_bands_hit) c9St
      = .ok (c9StAfter, [1]) ∧
    (∀ j ∈ [1], c9St.n_bands_hit ≤ j) ∧
    c9StAfter.n_bands_hit = c9St.n_bands_hit + [1].length ∧
    c9StAfter.trades = c9St.trades :=
  ⟨c9_loopstep,
    (c9_watermark.2.2 c9P 7 c9St c9Row c9StAfter [1] c9_loopstep).2.1,
    (c9_watermark.2.2 c9P 7 c9St c9Row c9StAfter [1] c9_loopstep).2.2.2.1,
    (c9_watermark.2.2 c9P 7 c9St c9Row c9StAfter [1] c9_loopstep).2.2.2.2⟩

/-- The kinds of close that can take effect on a bar, in the priority order
of the claim: adverse-open guard ("jump"), stop-loss, liquidation,
take-profit, signal exit. -/
inductive CloseKind where
  | jump
  | sl
  | liq
  | tp
  | exitSig
deriving DecidableEq, Repr

/-- The value of the envelope `close_long` / `close_short` signal column
(populate_long_signals / populate_short_signals). -/
def envExitVal (row : EnvRow) (s : Side) : Bool :=
  match s with
  | .long => decide (row.high ≥ row.average)
  | .short => decide (row.low ≤ row.average)

/-- First close condition that holds on a bar in the envelope engine, in the
source's elif order: jump, stop-loss, liquidation, signal exit. -/
def envDecision (p : EnvParams) (pos : Position) (row : EnvRow) (s : Side) :
    Option CloseKind :=
  if envJumpCond p pos row s then some .jump
  else if sideCheckSl s pos.sl_price row.low row.high then some .sl
  else if sideCheckLiq s pos.liquidation_price row.low row.high then some .liq
  else if envExitVal row s then some .exitSig
  else none

/-- First close condition that holds on a bar in the SMA engine, in the
source's elif order: stop-loss, liquidation, take-profit, signal exit
(`cb` is the value of the side's exit signal column). -/
def smaDecision (pos : Position) (row : SmaRow) (s : Side) (tp : ℚ) (cb : Bool) :
    Option CloseKind :=
  if sideCheckSl s pos.sl_price row.low row.high then some .sl
  else if sideCheckLiq s pos.liquidation_price row.low row.high then some .liq
  else if sideCheckTp s tp row.low row.high then some .tp
  else if cb then some .exitSig else none

/-- Close reason string recorded for each close kind (liquidation records no
ledger entry). -/
def closeReasonOf (s : Side) : CloseKind → String
  | .jump => jumpReason s
  | .sl => slReason s
  | .liq => ""
  | .tp => tpReason s
  | .exitSig => exitReason s

/-- Close price used for each close kind in the envelope engine. -/
def envClosePriceOf (pos : Position) (row : EnvRow) : CloseKind → ℚ
  | .jump => row.open_
  | .sl => pos.sl_price
  | .liq => pos.liquidation_price
  | .tp => 0
  | .exitSig => row.average

/-- Close price used for each close kind in the SMA engine. -/
def smaClosePriceOf (pos : Position) (row : SmaRow) (tp : ℚ) : CloseKind → ℚ
  | .jump => 0
  | .sl => pos.sl_price
  | .liq => pos.liquidation_price
  | .tp => tp
  | .exitSig => row.close

lemma envEval_phases (p : EnvParams) (t : Nat) (st st1 st2 st' : EnvState) (row : EnvRow)
    (hg : envGateUpdate { st with position_was_closed := false } row = .ok st1)
    (hc : envClosePhase p t st1 row = .ok st2)
    (he : envEntryPhase p t st2 row = .ok st') :
    envEval p t st row = .ok st' := by
  unfold envEval
  simp only [hg, hc]
  exact he

lemma envEval_phases_closeErr (p : EnvParams) (t : Nat) (st st1 : EnvState) (row : EnvRow)
    (e : EnvHalt)
    (hg : envGateUpdate { st with position_was_closed := false } row = .ok st1)
    (hcErr : envClosePhase p t st1 row = .error e) :
    envEval p t st row = .error e := by
  unfold envEval
  simp only [hg, hcErr]

lemma envEval_close_characterization (p : EnvParams) (t : Nat) (st : EnvState)
    (row : EnvRow) (s : Side)
    (hgood : st.good_to_trade = true)
    (hside : st.position.side = some s)
    (hcs : closeSig p row s = some (envExitVal row s)) :
    match envDecision p st.position row s with
    | some .liq =>
      envEval p t st row = .error (.liquidation t st.position.liquidation_price
        { st with position_was_closed := false })
    | some k =>
      ∃ st' tr, envEval p t st row = .ok st' ∧ st'.trades = st.trades ++ [tr] ∧
        tr.close_reason = closeReasonOf s k ∧
        tr.close_price = envClosePriceOf st.position row k
    | none => ∀ st', envEval p t st row = .ok st' → st'.trades = st.trades := by
  have hg : envGateUpdate { st with position_was_closed := false } row =
      .ok { st with position_was_closed := false } :=
    envGateUpdate_of_good _ _ hgood
  unfold envDecision
  by_cases hj : envJumpCond p st.position row s = true
  · simp only [hj, if_true]
    have hc : envClosePhase p t { st with position_was_closed := false } row =
        .ok { envCloseTrade { st with position_was_closed := false } t row.open_
                (jumpReason s) with
              good_to_trade := false, n_bands_hit := 0 } := by
      unfold envClosePhase
      simp only [hside, hj, if_true]
    refine ⟨_, envTradeOf { st with position_was_closed := false } t row.open_ (jumpReason s),
      envEval_phases p t st _ _ _ row hg hc (envEntryPhase_skip _ _ _ _ (Or.inl rfl)),
      rfl, ?_, ?_⟩
    · exact (closePos_reason st.position t row.open_ (jumpReason s) s hside).1
    · exact (closePos_reason st.position t row.open_ (jumpReason s) s hside).2
  · simp only [hj, Bool.false_eq_true, if_false]
    by_cases hsl : sideCheckSl s st.position.sl_price row.low row.high = true
    · simp only [hsl, if_true]
      have hc : envClosePhase p t { st with position_was_closed := false } row =
          .ok { envCloseTrade { st with position_was_closed := false } t
                  st.position.sl_price (slReason s) with
                good_to_trade := false, n_bands_hit := 0 } := by
        unfold envClosePhase
        simp only [hside, hj, Bool.false_eq_true, if_false, hsl, if_true]
      refine ⟨_, envTradeOf { st with position_was_closed := false } t st.position.sl_price
          (slReason s),
        envEval_phases p t st _ _ _ row hg hc (envEntryPhase_skip _ _ _ _ (Or.inl rfl)),
        rfl, ?_, ?_⟩
      · exact (closePos_reason st.position t st.position.sl_price (slReason s) s hside).1
      · exact (closePos_reason st.position t st.position.sl_price (slReason s) s hside).2
    · simp only [hsl, Bool.false_eq_true, if_false]
      by_cases hlq : sideCheckLiq s st.position.liquidation_price row.low row.high = true
      · simp only [hlq, if_true]
        refine envEval_phases_closeErr p t st _ row _ hg ?_
        unfold envClosePhase
        simp only [hside, hj, Bool.false_eq_true, if_false, hsl, hlq, if_true]
      · simp only [hlq, Bool.false_eq_true, if_false]
        by_cases hex : envExitVal row s = true
        · simp only [hex, if_true]
          have hc : envClosePhase p t { st with position_was_closed := false } row =
              .ok { envCloseTrade { st with position_was_closed := false } t row.average
                      (exitReason s) with
                    position_was_closed := true, n_bands_hit := 0 } := by
            unfold envClosePhase
            simp only [hside, hj, Bool.false_eq_true, if_false, hsl, hlq, hcs, hex, if_true]
          refine ⟨_, envTradeOf { st with position_was_closed := false } t row.average
              (exitReason s),
            envEval_phases p t st _ _ _ row hg hc (envEntryPhase_skip _ _ _ _ (Or.inr rfl)),
            rfl, ?_, ?_⟩
          · exact (closePos_reason st.position t row.average (exitReason s) s hside).1
          · exact (closePos_reason st.position t row.average (exitReason s) s hside).2
        · simp only [hex, Bool.false_eq_true, if_false]
          intro st' h
          have hc : envClosePhase p t { st with position_was_closed := false } row =
              .ok { st with position_was_closed := false } := by
            unfold envClosePhase
            simp only [hside, hj, Bool.false_eq_true, if_false, hsl, hlq, hcs, hex]
          unfold envEval at h
          simp only [hg, hc] at h
          exact (envEntryPhase_ok p t { st with position_was_closed := false } row st' h).1

lemma smaEval_close_characterization (p : SmaParams) (t : Nat) (st : SmaState)
    (row : SmaRow) (s : Side) (tp : ℚ) (cb : Bool)
    (hside : st.position.side = some s)
    (htp : st.position.tp_price = some tp)
    (hcb : smaExitCol row s = some cb) :
    match smaDecision st.position row s tp cb with
    | some .liq =>
      smaEval p t st row = .error (.liquidation t st.position.liquidation_price st)
    | some k =>
      ∃ st' tr, smaEval p t st row = .ok st' ∧ st'.trades = st.trades ++ [tr] ∧
        tr.close_reason = closeReasonOf s k ∧
        tr.close_price = smaClosePriceOf st.position row tp k
    | none => smaEval p t st row = .ok st := by
  unfold smaDecision
  by_cases h1 : sideCheckSl s st.position.sl_price row.low row.high = true
  · simp only [h1, if_true]
    refine ⟨smaCloseTrade st t st.position.sl_price (slReason s),
      smaTradeOf st t st.position.sl_price (slReason s), ?_, rfl, ?_, ?_⟩
    · unfold smaEval
      simp only [hside, h1, if_true]
    · exact (closePos_reason st.position t st.position.sl_price (slReason s) s hside).1
    · exact (closePos_reason st.position t st.position.sl_price (slReason s) s hside).2
  · simp only [h1, Bool.false_eq_true, if_false]
    by_cases h2 : sideCheckLiq s st.position.liquidation_price row.low row.high = true
    · simp only [h2, if_true]
      unfold smaEval
      simp only [hside, h1, Bool.false_eq_true, if_false, h2, if_true]
    · simp only [h2, Bool.false_eq_true, if_false]
      by_cases h3 : sideCheckTp s tp row.low row.high = true
      · simp only [h3, if_true]
        refine ⟨smaCloseTrade st t tp (tpReason s),
          smaTradeOf st t tp (tpReason s), ?_, rfl, ?_, ?_⟩
        · unfold smaEval
          simp only [hside, h1, Bool.false_eq_true, if_false, h2, htp, h3, if_true]
        · exact (closePos_reason st.position t tp (tpReason s) s hside).1
        · exact (closePos_reason st.position t tp (tpReason s) s hside).2
      · simp only [h3, Bool.false_eq_true, if_false]
        cases cb with
        | true =>
          simp only [if_true]
          refine ⟨smaCloseTrade st t row.close (exitReason s),
            smaTradeOf st t row.close (exitReason s), ?_, rfl, ?_, ?_⟩
          · unfold smaEval
            simp only [hside, h1, Bool.false_eq_true, if_false, h2, htp, h3, hcb, if_true]
          · exact (closePos_reason st.position t row.close (exitReason s) s hside).1
          · exact (closePos_reason st.position t row.close (exitReason s) s hside).2
        | false =>
          simp only [Bool.false_eq_true, if_false]
          unfold smaEval
          simp only [hside, h1, Bool.false_eq_true, if_false, h2, htp, h3, hcb]

/-- C3: with a position open, the close conditions are evaluated once per
bar in the fixed priority order adverse-open guard, stop-loss, liquidation,
take-profit (SMA engine only; the envelope engine has no take-profit and
the SMA engine no adverse-open guard), signal exit — and at most one takes
effect: the bar appends exactly one ledger entry, whose reason and price are
those of the first condition that holds (liquidation instead halts the run
with no entry), and appends none when no condition holds. -/
theorem c3_close_priority :
    (∀ (p : EnvParams) (t : Nat) (st : EnvState) (row : EnvRow) (s : Side),
      st.good_to_trade = true → st.position.side = some s →
      closeSig p row s = some (envExitVal row s) →
      match envDecision p st.position row s with
      | some .liq =>
        envEval p t st row = .error (.liquidation t st.position.liquidation_price
          { st with position_was_closed := false })
      | some k =>
        ∃ st' tr, envEval p t st row = .ok st' ∧ st'.trades = st.trades ++ [tr] ∧
          tr.close_reason = closeReasonOf s k ∧
          tr.close_price = envClosePriceOf st.position row k
      | none => ∀ st', envEval p t st row = .ok st' → st'.trades = st.trades) ∧
    (∀ (q : SmaParams) (t : Nat) (st : SmaState) (row : SmaRow) (s : Side) (tp : ℚ)
      (cb : Bool),
      st.position.side = some s → st.position.tp_price = some tp →
      smaExitCol row s = some cb →
      match smaDecision st.position row s tp cb with
      | some .liq =>
        smaEval q t st row = .error (.liquidation t st.position.liquidation_price st)
      | some k =>
        ∃ st' tr, smaEval q t st row = .ok st' ∧ st'.trades = st.trades ++ [tr] ∧
          tr.close_reason = closeReasonOf s k ∧
          tr.close_price = smaClosePriceOf st.position row tp k
      | none => smaEval q t st row = .ok st) :=
  ⟨fun p t st row s h1 h2 h3 => envEval_close_characterization p t st row s h1 h2 h3,
    fun q t st row s tp cb h1 h2 h3 =>
      smaEval_close_characterization q t st row s tp cb h1 h2 h3⟩

/-- C3 witness configuration: envelope with a 10 percent adverse-open guard
configured. -/
def c3P : EnvParams :=
  { average_type := "SMA", mode := "both", envelopes := [1 / 10], stop_loss_pct := 1 / 20,
    price_jump_pct := some (1 / 10), position_size_fixed_amount := some 100 }

/-- C3 witness state: a long open at 100 with stop-loss 95. -/
def c3St : EnvState :=
  { good_to_trade := true
    position_was_closed := false
    n_bands_hit := 1
    last_position_side := some .long
    balance := 900
    position :=
      { leverage := 1, open_fee_rate := 0, close_fee_rate := 0, side := some .long,
        behavior := some .long,
        open_time := 0, open_price := 100, open_reason := "Open long 1",
        initial_margin := 100, open_notional_value := 100, amount := 1,
        sl_price := 95, liquidation_price := 0 }
    trades := [] }

/-- C3 witness bar: the open gap does not trip the guard, the low 94 hits
the stop-loss 95 (and the exit signal also holds, but stop-loss has
priority). -/
def c3Row : EnvRow := { open_ := 100, high := 105, low := 94, close := 100, average := 100 }

/-- Witness for C3: the envelope conjunct applied to a bar whose first true
close condition is the stop-loss. -/
theorem c3_witness :
    c3St.good_to_trade = true ∧ c3St.position.side = some .long ∧
    closeSig c3P c3Row .long = some (envExitVal c3Row .long) ∧
    envDecision c3P c3St.position c3Row .long = some .sl ∧
    (∃ st' tr, envEval c3P 4 c3St c3Row = .ok st' ∧ st'.trades = c3St.trades ++ [tr] ∧
      tr.close_reason = closeReasonOf .long .sl ∧
      tr.close_price = envClosePriceOf c3St.position c3Row .sl) := by
  have hcs : closeSig c3P c3Row .long = some (envExitVal c3Row .long) := rfl
  have hdec : envDecision c3P c3St.position c3Row .long = some .sl := by
    norm_num [envDecision, envJumpCond, sideCheckSl, c3P, c3St, c3Row]
  refine ⟨rfl, rfl, hcs, hdec, ?_⟩
  have hmain := c3_close_priority.1 c3P 4 c3St c3Row .long rfl rfl hcs
  rw [hdec] at hmain
  exact hmain

/-- The gate-reopening ("recross") condition: the bar close is back on the
last position's favorable side of the reference average. -/
def envRecross (s : Side) (row : EnvRow) : Bool :=
  match s with
  | .long => decide (row.close > row.average)
  | .short => decide (row.close < row.average)

lemma envEval_gate_fixpoint (p : EnvParams) (t : Nat) (st : EnvState) (row : EnvRow)
    (s : Side) (hgate : st.good_to_trade = false) (hpwc : st.position_was_closed = false)
    (hside : st.position.side = none) (hlast : st.last_position_side = some s)
    (hrec : envRecross s row = false) :
    envEval p t st row = .ok st := by
  unfold envEval
  rw [EnvState_reset_pwc st hpwc]
  have hg : envGateUpdate st row = .ok st := by
    unfold envGateUpdate
    simp only [hgate, Bool.false_eq_true, if_false, hlast]
    cases s with
    | long =>
      unfold envRecross at hrec
      rw [if_neg (of_decide_eq_false hrec)]
    | short =>
      unfold envRecross at hrec
      rw [if_neg (of_decide_eq_false hrec)]
  simp only [hg]
  have hc : envClosePhase p t st row = .ok st := by
    unfold envClosePhase
    simp only [hside]
  simp only [hc]
  exact envEntryPhase_skip p t st row (Or.inl hgate)

lemma envRun_gate_fixpoint (p : EnvParams) (s : Side) :
    ∀ (bars : List EnvRow) (t : Nat) (st : EnvState),
      st.good_to_trade = false → st.position_was_closed = false →
      st.position.side = none → st.last_position_side = some s →
      (∀ row ∈ bars, envRecross s row = false) →
      envRun p t st bars = .finished st := by
  intro bars
  induction bars with
  | nil => intro t st _ _ _ _ _; rfl
  | cons row rest ih =>
    intro t st h1 h2 h3 h4 h5
    have he : envEval p t st row = .ok st :=
      envEval_gate_fixpoint p t st row s h1 h2 h3 h4 (h5 row (List.mem_cons_self row rest))
    show envRun p t st (row :: rest) = .finished st
    unfold envRun
    simp only [he]
    exact ih (t + 1) st h1 h2 h3 h4 (fun r hr => h5 r (List.mem_cons_of_mem row hr))

lemma envEval_gate_reopen (p : EnvParams) (t : Nat) (st : EnvState) (row : EnvRow)
    (s : Side) (hgate : st.good_to_trade = false) (hpwc : st.position_was_closed = false)
    (hside : st.position.side = none) (hlast : st.last_position_side = some s)
    (hrec : envRecross s row = true) :
    envEval p t st row = envEntryPhase p t { st with good_to_trade := true } row := by
  unfold envEval
  rw [EnvState_reset_pwc st hpwc]
  have hg : envGateUpdate st row = .ok { st with good_to_trade := true } := by
    unfold envGateUpdate
    simp only [hgate, Bool.false_eq_true, if_false, hlast]
    cases s with
    | long =>
      unfold envRecross at hrec
      rw [if_pos (of_decide_eq_true hrec)]
    | short =>
      unfold envRecross at hrec
      rw [if_pos (of_decide_eq_true hrec)]
  simp only [hg]
  have hc : envClosePhase p t { st with good_to_trade := true } row =
      .ok { st with good_to_trade := true } := by
    unfold envClosePhase
    simp only [hside]
  simp only [hc]

lemma envEval_jump_close (p : EnvParams) (t : Nat) (st : EnvState) (row : EnvRow)
    (s : Side) (hgood : st.good_to_trade = true) (hside : st.position.side = some s)
    (hj : envJumpCond p st.position row s = true) :
    envEval p t st row =
      .ok { envCloseTrade { st with position_was_closed := false } t row.open_
              (jumpReason s) with
            good_to_trade := false, n_bands_hit := 0 } := by
  have hg : envGateUpdate { st with position_was_closed := false } row =
      .ok { st with position_was_closed := false } :=
    envGateUpdate_of_good _ _ hgood
  have hc : envClosePhase p t { st with position_was_closed := false } row =
      .ok { envCloseTrade { st with position_was_closed := false } t row.open_
              (jumpReason s) with
            good_to_trade := false, n_bands_hit := 0 } := by
    unfold envClosePhase
    simp only [hside, hj, if_true]
  exact envEval_phases p t st _ _ _ row hg hc (envEntryPhase_skip _ _ _ _ (Or.inl rfl))

lemma envEval_sl_close (p : EnvParams) (t : Nat) (st : EnvState) (row : EnvRow)
    (s : Side) (hgood : st.good_to_trade = true) (hside : st.position.side = some s)
    (hj : envJumpCond p st.position row s = false)
    (hsl : sideCheckSl s st.position.sl_price row.low row.high = true) :
    envEval p t st row =
      .ok { envCloseTrade { st with position_was_closed := false } t st.position.sl_price
              (slReason s) with
            good_to_trade := false, n_bands_hit := 0 } := by
  have hg : envGateUpdate { st with position_was_closed := false } row =
      .ok { st with position_was_closed := false } :=
    envGateUpdate_of_good _ _ hgood
  have hc : envClosePhase p t { st with position_was_closed := false } row =
      .ok { envCloseTrade { st with position_was_closed := false } t st.position.sl_price
              (slReason s) with
            good_to_trade := false, n_bands_hit := 0 } := by
    unfold envClosePhase
    simp only [hside, hj, Bool.false_eq_true, if_false, hsl, if_true]
  exact envEval_phases p t st _ _ _ row hg hc (envEntryPhase_skip _ _ _ _ (Or.inl rfl))

/-- C10: in the envelope engine a stop-loss close also closes the
good-to-trade gate: a bar whose first true close condition is the stop-loss
ends with the position closed at the stop price with reason "SL long" /
"SL short", the gate shut, and the watermark reset; and from any flat state
with the gate shut after a long (short) position, the engine state is
completely frozen — no entries are evaluated and nothing changes — for as
long as the bars' closes stay at or below (at or above) the reference
average. -/
theorem c10_sl_closes_gate :
    (∀ (p : EnvParams) (t : Nat) (st : EnvState) (row : EnvRow) (s : Side),
      st.good_to_trade = true → st.position.side = some s →
      envJumpCond p st.position row s = false →
      sideCheckSl s st.position.sl_price row.low row.high = true →
      ∃ st' tr, envEval p t st row = .ok st' ∧ st'.trades = st.trades ++ [tr] ∧
        tr.close_reason = slReason s ∧ tr.close_price = st.position.sl_price ∧
        st'.good_to_trade = false ∧ st'.position.side = none ∧ st'.n_bands_hit = 0 ∧
        st'.last_position_side = st.last_position_side) ∧
    (∀ (p : EnvParams) (s : Side) (bars : List EnvRow) (t : Nat) (st : EnvState),
      st.good_to_trade = false → st.position_was_closed = false →
      st.position.side = none → st.last_position_side = some s →
      (∀ row ∈ bars, envRecross s row = false) →
      envRun p t st bars = .finished st) := by
  constructor
  · intro p t st row s hgood hside hj hsl
    refine ⟨_, envTradeOf { st with position_was_closed := false } t st.position.sl_price
        (slReason s),
      envEval_sl_close p t st row s hgood hside hj hsl, rfl,
      (closePos_reason st.position t st.position.sl_price (slReason s) s hside).1,
      (closePos_reason st.position t st.position.sl_price (slReason s) s hside).2,
      rfl, closePos_side _ _ _ _, rfl, rfl⟩
  · intro p s bars t st h1 h2 h3 h4 h5
    exact envRun_gate_fixpoint p s bars t st h1 h2 h3 h4 h5

/-- C10 witness configuration. -/
def c10P : EnvParams :=
  { average_type := "SMA", mode := "both", envelopes := [1 / 10], stop_loss_pct := 1 / 20,
    price_jump_pct := some (1 / 10), position_size_fixed_amount := some 100 }

/-- C10 witness state: a long open at 100 with stop-loss 95. -/
def c10St : EnvState :=
  { good_to_trade := true
    position_was_closed := false
    n_bands_hit := 1
    last_position_side := some .long
    balance := 900
    position :=
      { leverage := 1, open_fee_rate := 0, close_fee_rate := 0, side := some .long,
        behavior := some .long,
        open_time := 0, open_price := 100, open_reason := "Open long 1",
        initial_margin := 100, open_notional_value := 100, amount := 1,
        sl_price := 95, liquidation_price := 0 }
    trades := [] }

/-- C10 witness bar: the low hits the stop-loss. -/
def c10Row : EnvRow := { open_ := 100, high := 101, low := 94, close := 96, average := 100 }

/-- C10 witness gate-closed flat state. -/
def c10StG : EnvState :=
  { good_to_trade := false
    position_was_closed := false
    n_bands_hit := 0
    last_position_side := some .long
    balance := 1000
    position := initPosition 1 0 0
    trades := [] }

/-- C10 witness non-recross bar: the close 90 stays below the average 100. -/
def c10RowB : EnvRow := { open_ := 92, high := 95, low := 88, close := 90, average := 100 }

/-- Witness for C10: both conjuncts applied to concrete inputs — the
stop-loss bar closes the trade and shuts the gate, and a gate-closed flat
state is frozen across a non-recross bar. -/
theorem c10_witness :
    c10St.good_to_trade = true ∧ c10St.position.side = some .long ∧
    envJumpCond c10P c10St.position c10Row .long = false ∧
    sideCheckSl .long c10St.position.sl_price c10Row.low c10Row.high = true ∧
    (∃ st' tr, envEval c10P 6 c10St c10Row = .ok st' ∧ st'.trades = c10St.trades ++ [tr] ∧
      tr.close_reason = slReason .long ∧ tr.close_price = c10St.position.sl_price ∧
      st'.good_to_trade = false ∧ st'.position.side = none ∧ st'.n_bands_hit = 0 ∧
      st'.last_position_side = c10St.last_position_side) ∧
    envRecross .long c10RowB = false ∧
    envRun c10P 7 c10StG [c10RowB] = .finished c10StG := by
  have hj : envJumpCond c10P c10St.position c10Row .long = false := by
    norm_num [envJumpCond, c10P, c10St, c10Row]
  have hsl : sideCheckSl .long c10St.position.sl_price c10Row.low c10Row.high = true := by
    norm_num [sideCheckSl, c10St, c10Row]
  have hrec : envRecross .long c10RowB = false := by
    norm_num [envRecross, c10RowB]
  exact ⟨rfl, rfl, hj, hsl,
    c10_sl_closes_gate.1 c10P 6 c10St c10Row .long rfl rfl hj hsl,
    hrec,
    c10_sl_closes_gate.2 c10P .long [c10RowB] 7 c10StG rfl rfl rfl rfl
      (by intro r hr; rw [List.mem_singleton] at hr; rw [hr]; exact hrec)⟩

/-- C4 (amended): when the bar open has breached the configured adverse-open
threshold relative to the open position's entry price, the position is
closed at that bar's open price — but with close reason "CA long" /
"CA short" (not "jump") — the gate shuts and the watermark resets; while the
gate is shut the flat engine state is frozen (no entries are evaluated) as
long as bar closes do not recross the reference average to the closed
position's original favorable side; and on the first bar whose close does
recross, the gate reopens and the bar's entries are evaluated normally. -/
theorem c4_amended :
    (∀ (p : EnvParams) (t : Nat) (st : EnvState) (row : EnvRow) (s : Side),
      st.good_to_trade = true → st.position.side = some s →
      envJumpCond p st.position row s = true →
      ∃ st' tr, envEval p t st row = .ok st' ∧ st'.trades = st.trades ++ [tr] ∧
        tr.close_reason = jumpReason s ∧ tr.close_price = row.open_ ∧
        st'.good_to_trade = false ∧ st'.position.side = none ∧ st'.n_bands_hit = 0 ∧
        st'.last_position_side = st.last_position_side) ∧
    (∀ (p : EnvParams) (s : Side) (bars : List EnvRow) (t : Nat) (st : EnvState),
      st.good_to_trade = false → st.position_was_closed = false →
      st.position.side = none → st.last_position_side = some s →
      (∀ row ∈ bars, envRecross s row = false) →
      envRun p t st bars = .finished st) ∧
    (∀ (p : EnvParams) (t : Nat) (st : EnvState) (row : EnvRow) (s : Side),
      st.good_to_trade = false → st.position_was_closed = false →
      st.position.side = none → st.last_position_side = some s →
      envRecross s row = true →
      envEval p t st row = envEntryPhase p t { st with good_to_trade := true } row) := by
  refine ⟨?_, ?_, ?_⟩
  · intro p t st row s hgood hside hj
    refine ⟨_, envTradeOf { st with position_was_closed := false } t row.open_ (jumpReason s),
      envEval_jump_close p t st row s hgood hside hj, rfl,
      (closePos_reason st.position t row.open_ (jumpReason s) s hside).1,
      (closePos_reason st.position t row.open_ (jumpReason s) s hside).2,
      rfl, closePos_side _ _ _ _, rfl, rfl⟩
  · intro p s bars t st h1 h2 h3 h4 h5
    exact envRun_gate_fixpoint p s bars t st h1 h2 h3 h4 h5
  · intro p t st row s h1 h2 h3 h4 h5
    exact envEval_gate_reopen p t st row s h1 h2 h3 h4 h5

/-- C4 counterexample configuration: a 10 percent adverse-open guard, one
10 percent band, fixed-amount sizing, leverage 1, zero fees. -/
def c4P : EnvParams :=
  { average_type := "SMA", mode := "both", envelopes := [1 / 10], stop_loss_pct := 3 / 10,
    price_jump_pct := some (1 / 10), position_size_fixed_amount := some 100 }

/-- C4 run, bar 0: the low 85 reaches the band at 90, opening a long. -/
def c4Row0 : EnvRow := { open_ := 100, high := 100, low := 85, close := 95, average := 100 }

/-- C4 run, bar 1: the bar opens at 80, below the 10 percent adverse-open
threshold 81 relative to the entry price 90. -/
def c4Row1 : EnvRow := { open_ := 80, high := 85, low := 79, close := 82, average := 100 }

/-- C4 run state after bar 0: long open at 90 (amount 10/9), watermark 1. -/
def c4StA : EnvState :=
  { good_to_trade := true
    position_was_closed := false
    n_bands_hit := 1
    last_position_side := some .long
    balance := 900
    position :=
      { leverage := 1, open_fee_rate := 0, close_fee_rate := 0, side := some .long,
        behavior := some .long,
        open_time := 0, open_price := 90, open_reason := "Open long 1",
        initial_margin := 100, open_notional_value := 100, amount := 10 / 9,
        sl_price := 63, liquidation_price := 0 }
    trades := [] }

/-- C4 run state after bar 1: trade closed by the adverse-open guard at the
bar open 80, reason "CA long", gate shut, watermark 0. -/
def c4StB : EnvState :=
  { good_to_trade := false
    position_was_closed := false
    n_bands_hit := 0
    last_position_side := some .long
    balance := 8900 / 9
    position :=
      { leverage := 1, open_fee_rate := 0, close_fee_rate := 0, side := none,
        behavior := some .long,
        open_time := 0, close_time := 1, open_price := 90, close_price := 80,
        open_reason := "Open long 1", close_reason := "CA long",
        initial_margin := 100, open_notional_value := 100,
        close_notional_value := 800 / 9, amount := 10 / 9, net_pnl := -100 / 9,
        net_pnl_pct := -100 / 9, sl_price := 63, liquidation_price := 0 }
    trades :=
      [{ open_time := 0, close_time := 1, open_reason := "Open long 1",
         close_reason := "CA long", open_price := 90, close_price := 80,
         initial_margin := 100, net_pnl := -100 / 9, net_pnl_pct := -100 / 9,
         open_notional_value := 100, close_notional_value := 800 / 9, amount := 10 / 9,
         open_fee := 0, close_fee := 0, sl_price := 63, tp_price := none,
         liquidation_price := 0, open_balance := 900, close_balance := 8900 / 9 }] }

lemma c4_step0 : envEval c4P 0 (envInit 1000 1 0 0) c4Row0 = .ok c4StA := by
  have hs1 : (("both" : String) == "short") = false := by decide
  have hs2 : (("both" : String) == "long") = false := by decide
  norm_num [c4P, c4Row0, c4StA, envEval, envGateUpdate, envClosePhase, envEntryPhase,
    envEntryLoop, envTrySelect, openLongSig, openShortSig, bandLow, bandHigh, envSizing,
    round4, envFill, Position.openPos, Position.calcOpeningMetrics, envSlCalc,
    envOpenReason, EnvParams.ignoreLongs, EnvParams.ignoreShorts, hs1, hs2,
    sideLiquidationPrice, envInit, initPosition, List.range, List.range.loop,
    Except.map]
  decide

lemma c4_step1 : envEval c4P 1 c4StA c4Row1 = .ok c4StB := by
  norm_num [c4P, c4Row1, c4StA, c4StB, envEval, envGateUpdate, envClosePhase,
    envEntryPhase, envCloseTrade, envTradeOf, tradeInfoOf, Position.closePos, sidePnl,
    envJumpCond, jumpReason, sideCheckSl, sideCheckLiq]

/-- C4 counterexample: on the concrete two-bar run the adverse-open guard
fires on bar 1 and the ledger records close reason "CA long" at close price
80 (the bar open) — the recorded reason is not the claim's literal "jump". -/
theorem c4_counterexample :
    (envOutcomeTrades (envRun c4P 0 (envInit 1000 1 0 0) [c4Row0, c4Row1])).map
        (fun tr => (tr.close_reason, tr.close_price)) = [("CA long", 80)] ∧
    ¬ ("CA long" = "jump") := by
  refine ⟨?_, by decide⟩
  have hrun : envRun c4P 0 (envInit 1000 1 0 0) [c4Row0, c4Row1] = .finished c4StB := by
    simp [envRun, c4_step0, c4_step1]
  rw [hrun]
  norm_num [envOutcomeTrades, c4StB]

/-- Witness for C4 (amended): the jump-close conjunct applied to the
concrete adverse-open bar of the counterexample run. -/
theorem c4_witness :
    c4StA.good_to_trade = true ∧ c4StA.position.side = some .long ∧
    envJumpCond c4P c4StA.position c4Row1 .long = true ∧
    (∃ st' tr, envEval c4P 1 c4StA c4Row1 = .ok st' ∧ st'.trades = c4StA.trades ++ [tr] ∧
      tr.close_reason = jumpReason .long ∧ tr.close_price = c4Row1.open_ ∧
      st'.good_to_trade = false ∧ st'.position.side = none ∧ st'.n_bands_hit = 0 ∧
      st'.last_position_side = c4StA.last_position_side) := by
  have hj : envJumpCond c4P c4StA.position c4Row1 .long = true := by
    norm_num [envJumpCond, c4P, c4StA, c4Row1]
  exact ⟨rfl, rfl, hj, c4_amended.1 c4P 1 c4StA c4Row1 .long rfl rfl hj⟩

lemma smaEntryPhase_trades (p : SmaParams) (t : Nat) (st : SmaState) (row : SmaRow)
    (st' : SmaState) (h : smaEntryPhase p t st row = .ok st') :
    st'.trades = st.trades := by
  unfold smaEntryPhase at h
  by_cases hig : p.ignoreLongs = true
  · rw [if_pos hig] at h
    by_cases higs : p.ignoreShorts = true
    · rw [if_pos higs] at h
      simp only [Except.ok.injEq] at h
      rw [← h]
    · rw [if_neg higs] at h
      cases hos : row.open_short with
      | none => simp only [hos] at h; cases h
      | some b =>
        simp only [hos] at h
        cases b with
        | false =>
          simp only [Bool.false_eq_true, if_false, Except.ok.injEq] at h
          rw [← h]
        | true =>
          simp only [if_true] at h
          cases hm : smaInitialMargin p st.balance row.close (smaShortSl row) with
          | none => simp only [hm] at h; cases h
          | some m =>
            simp only [hm, Except.ok.injEq] at h
            rw [← h]
  · rw [if_neg hig] at h
    cases hol : row.open_long with
    | none => simp only [hol] at h; cases h
    | some b =>
      simp only [hol] at h
      cases b with
      | true =>
        simp only [if_true] at h
        cases hm : smaInitialMargin p st.balance row.close (smaLongSl row) with
        | none => simp only [hm] at h; cases h
        | some m =>
          simp only [hm, Except.ok.injEq] at h
          rw [← h]
      | false =>
        simp only [Bool.false_eq_true, if_false] at h
        by_cases higs : p.ignoreShorts = true
        · rw [if_pos higs] at h
          simp only [Except.ok.injEq] at h
          rw [← h]
        · rw [if_neg higs] at h
          cases hos : row.open_short with
          | none => simp only [hos] at h; cases h
          | some b2 =>
            simp only [hos] at h
            cases b2 with
            | false =>
              simp only [Bool.false_eq_true, if_false, Except.ok.injEq] at h
              rw [← h]
            | true =>
              simp only [if_true] at h
              cases hm : smaInitialMargin p st.balance row.close (smaShortSl row) with
              | none => simp only [hm] at h; cases h
              | some m =>
                simp only [hm, Except.ok.injEq] at h
                rw [← h]

/-- C5 (amended): entries are evaluated on a bar only if no position was
closed on that same bar.  A bar that closes a position always ends flat —
same-bar re-entry after a signal exit never happens (the envelope skips the
entry phase via `position_was_closed` or the shut gate, and the SMA
engine's entry evaluation sits in the else-branch of the open-position
dispatch) — while a bar starting flat (envelope: with the gate open) does
evaluate the entry conditions on that same bar. -/
theorem c5_amended :
    (∀ (p : EnvParams) (t : Nat) (st : EnvState) (row : EnvRow) (st' : EnvState),
      envEval p t st row = .ok st' → st.trades.length < st'.trades.length →
      st'.position.side = none) ∧
    (∀ (p : EnvParams) (t : Nat) (st : EnvState) (row : EnvRow),
      st.position.side = none → st.good_to_trade = true →
      envEval p t st row = envEntryPhase p t { st with position_was_closed := false } row) ∧
    (∀ (q : SmaParams) (t : Nat) (st : SmaState) (row : SmaRow) (st' : SmaState),
      smaEval q t st row = .ok st' → st.trades.length < st'.trades.length →
      st'.position.side = none) ∧
    (∀ (q : SmaParams) (t : Nat) (st : SmaState) (row : SmaRow),
      st.position.side = none → smaEval q t st row = smaEntryPhase q t st row) := by
  refine ⟨?_, ?_, ?_, ?_⟩
  · intro p t st row st' h hlen
    unfold envEval at h
    cases hg : envGateUpdate { st with position_was_closed := false } row with
    | error e => simp only [hg] at h; simp at h
    | ok st1 =>
      simp only [hg] at h
      obtain ⟨_, _, gt, _, _, _⟩ := envGateUpdate_ok _ _ _ hg
      have hst1t : st1.trades = st.trades := by rw [gt]
      cases hc : envClosePhase p t st1 row with
      | error e => simp only [hc] at h; simp at h
      | ok st2 =>
        simp only [hc] at h
        rcases envClosePhase_cases p t st1 row st2 hc with heq | ⟨c1, _, c3, _, _⟩
        · rw [heq] at h
          obtain ⟨ht, _, _, _⟩ := envEntryPhase_ok p t st1 row st' h
          rw [ht, hst1t] at hlen
          exact absurd hlen (by simp)
        · have hskip := envEntryPhase_skip p t st2 row c3
          rw [hskip] at h
          simp only [Except.ok.injEq] at h
          rw [← h]
          exact c1
  · intro p t st row hside hgood
    unfold envEval
    have hg : envGateUpdate { st with position_was_closed := false } row =
        .ok { st with position_was_closed := false } :=
      envGateUpdate_of_good _ _ hgood
    simp only [hg]
    have hc : envClosePhase p t { st with position_was_closed := false } row =
        .ok { st with position_was_closed := false } := by
      unfold envClosePhase
      simp only [hside]
    simp only [hc]
  · intro q t st row st' h hlen
    unfold smaEval at h
    cases hside : st.position.side with
    | none =>
      simp only [hside] at h
      rw [smaEntryPhase_trades q t st row st' h] at hlen
      exact absurd hlen (by simp)
    | some s =>
      simp only [hside] at h
      by_cases h1 : sideCheckSl s st.position.sl_price row.low row.high = true
      · rw [if_pos h1] at h
        simp only [Except.ok.injEq] at h
        rw [← h]
        exact (smaCloseTrade_fields st t st.position.sl_price (slReason s)).2.1
      · rw [if_neg h1] at h
        by_cases h2 : sideCheckLiq s st.position.liquidation_price row.low row.high = true
        · rw [if_pos h2] at h; cases h
        · rw [if_neg h2] at h
          cases htp : st.position.tp_price with
          | none => simp only [htp] at h; cases h
          | some tp =>
            simp only [htp] at h
            by_cases h3 : sideCheckTp s tp row.low row.high = true
            · rw [if_pos h3] at h
              simp only [Except.ok.injEq] at h
              rw [← h]
              exact (smaCloseTrade_fields st t tp (tpReason s)).2.1
            · rw [if_neg h3] at h
              cases hcs : smaExitCol row s with
              | none => simp only [hcs] at h; cases h
              | some b =>
                simp only [hcs] at h
                cases b with
                | true =>
                  simp only [if_true, Except.ok.injEq] at h
                  rw [← h]
                  exact (smaCloseTrade_fields st t row.close (exitReason s)).2.1
                | false =>
                  simp only [Bool.false_eq_true, if_false, Except.ok.injEq] at h
                  rw [← h] at hlen
                  exact absurd hlen (by simp)
  · intro q t st row hside
    unfold smaEval
    simp only [hside]

/-- C5 counterexample configuration: one 10 percent band, fixed-amount
sizing, no adverse-open guard. -/
def c5P : EnvParams :=
  { average_type := "SMA", mode := "both", envelopes := [1 / 10], stop_loss_pct := 3 / 10,
    position_size_fixed_amount := some 100 }

/-- C5 run, bar 0: the low 85 reaches the band at 90, opening a long. -/
def c5Row0 : EnvRow := { open_ := 100, high := 100, low := 85, close := 95, average := 100 }

/-- C5 run, bar 1: the signal exit fires (high 105 above the average 100)
and the long entry trigger holds again on the same bar (low 85 at or below
the band 90). -/
def c5Row1 : EnvRow := { open_ := 95, high := 105, low := 85, close := 95, average := 100 }

/-- C5 run state after bar 0: long open at 90 (amount 10/9), watermark 1. -/
def c5StA : EnvState :=
  { good_to_trade := true
    position_was_closed := false
    n_bands_hit := 1
    last_position_side := some .long
    balance := 900
    position :=
      { leverage := 1, open_fee_rate := 0, close_fee_rate := 0, side := some .long,
        behavior := some .long,
        open_time := 0, open_price := 90, open_reason := "Open long 1",
        initial_margin := 100, open_notional_value := 100, amount := 10 / 9,
        sl_price := 63, liquidation_price := 0 }
    trades := [] }

/-- C5 run state after bar 1: the signal exit closed the trade at the
average 100; `position_was_closed` blocked the entry phase, so the run ends
the bar flat despite the live entry trigger. -/
def c5StB : EnvState :=
  { good_to_trade := true
    position_was_closed := true
    n_bands_hit := 0
    last_position_side := some .long
    balance := 9100 / 9
    position :=
      { leverage := 1, open_fee_rate := 0, close_fee_rate := 0, side := none,
        behavior := some .long,
        open_time := 0, close_time := 1, open_price := 90, close_price := 100,
        open_reason := "Open long 1", close_reason := "Exit long",
        initial_margin := 100, open_notional_value := 100,
        close_notional_value := 1000 / 9, amount := 10 / 9, net_pnl := 100 / 9,
        net_pnl_pct := 100 / 9, sl_price := 63, liquidation_price := 0 }
    trades :=
      [{ open_time := 0, close_time := 1, open_reason := "Open long 1",
         close_reason := "Exit long", open_price := 90, close_price := 100,
         initial_margin := 100, net_pnl := 100 / 9, net_pnl_pct := 100 / 9,
         open_notional_value := 100, close_notional_value := 1000 / 9, amount := 10 / 9,
         open_fee := 0, close_fee := 0, sl_price := 63, tp_price := none,
         liquidation_price := 0, open_balance := 900, close_balance := 9100 / 9 }] }

lemma c5_step0 : envEval c5P 0 (envInit 1000 1 0 0) c5Row0 = .ok c5StA := by
  have hs1 : (("both" : String) == "short") = false := by decide
  have hs2 : (("both" : String) == "long") = false := by decide
  norm_num [c5P, c5Row0, c5StA, envEval, envGateUpdate, envClosePhase, envEntryPhase,
    envEntryLoop, envTrySelect, openLongSig, openShortSig, bandLow, bandHigh, envSizing,
    round4, envFill, Position.openPos, Position.calcOpeningMetrics, envSlCalc,
    envOpenReason, EnvParams.ignoreLongs, EnvParams.ignoreShorts, hs1, hs2,
    sideLiquidationPrice, envInit, initPosition, List.range, List.range.loop,
    Except.map]
  decide

lemma c5_step1 : envEval c5P 1 c5StA c5Row1 = .ok c5StB := by
  have hs1 : (("both" : String) == "short") = false := by decide
  norm_num [c5P, c5Row1, c5StA, c5StB, envEval, envGateUpdate, envClosePhase,
    envEntryPhase, envCloseTrade, envTradeOf, tradeInfoOf, Position.closePos, sidePnl,
    envJumpCond, exitReason, sideCheckSl, sideCheckLiq, closeSig,
    EnvParams.ignoreLongs, EnvParams.ignoreShorts, hs1]

/-- C5 counterexample: on the concrete two-bar run, bar 1 closes the long by
the signal exit while the long entry trigger holds on that same bar and the
gate is open; yet the bar ends flat with the watermark at 0 — the entry
conditions were not evaluated after the same-bar flattening, so the
claimed same-bar re-entry does not happen. -/
theorem c5_counterexample :
    envRun c5P 0 (envInit 1000 1 0 0) [c5Row0, c5Row1] = .finished c5StB ∧
    openLongSig c5P c5Row1 0 = some true ∧
    c5StB.good_to_trade = true ∧
    c5StB.trades.length = 1 ∧
    c5StB.position.side = none ∧
    c5StB.n_bands_hit = 0 := by
  refine ⟨?_, ?_, rfl, rfl, rfl, rfl⟩
  · simp [envRun, c5_step0, c5_step1]
  · norm_num [openLongSig, EnvParams.ignoreLongs, bandLow, c5P, c5Row1]
    decide

/-- Witness for C5 (amended): the flat-bar conjunct applied to bar 0 of the
counterexample run — a bar starting flat with the gate open does evaluate
entries. -/
theorem c5_witness :
    (envInit 1000 1 0 0).position.side = none ∧
    (envInit 1000 1 0 0).good_to_trade = true ∧
    envEval c5P 0 (envInit 1000 1 0 0) c5Row0 =
      envEntryPhase c5P 0 { envInit 1000 1 0 0 with position_was_closed := false } c5Row0 :=
  ⟨rfl, rfl, c5_amended.2.1 c5P 0 (envInit 1000 1 0 0) c5Row0 rfl rfl⟩

/-- C6 counterexample configuration: valid average type and trade mode but
no sizing key at all. -/
def c6P : EnvParams :=
  { average_type := "SMA", mode := "both", envelopes := [1 / 10], stop_loss_pct := 1 / 10 }

/-- C6 bar: the first band's entry trigger fires, forcing the sizing code to
run. -/
def c6Row : EnvRow := { open_ := 100, high := 100, low := 85, close := 95, average := 100 }

lemma c6_step : envEval c6P 0 (envInit 1000 1 0 0) c6Row =
    .error (.keyError (envInit 1000 1 0 0)) := by
  have hs1 : (("both" : String) == "short") = false := by decide
  have hs2 : (("both" : String) == "long") = false := by decide
  norm_num [c6P, c6Row, envEval, envGateUpdate, envClosePhase, envEntryPhase,
    envEntryLoop, envTrySelect, openLongSig, openShortSig, bandLow, bandHigh, envSizing,
    EnvParams.ignoreLongs, EnvParams.ignoreShorts, hs1, hs2, envInit, initPosition,
    List.range, List.range.loop, Except.map]

/-- C6 counterexample: a configuration with no recognized sizing mode passes
setup (`envSetup` succeeds — only the average type and the trade mode are
validated), and the run then dies with a Python runtime error on the very
first bar that tries to size an entry, i.e. during the simulation, not
before it. -/
theorem c6_counterexample :
    envSetup c6P = .ok () ∧
    c6P.position_size_percentage = none ∧
    c6P.position_size_fixed_amount = none ∧
    envRun c6P 0 (envInit 1000 1 0 0) [c6Row] =
      .halted (.keyError (envInit 1000 1 0 0)) := by
  refine ⟨rfl, rfl, rfl, ?_⟩
  simp [envRun, c6_step]

/-- C6 (amended): setup raises a fatal configuration error exactly for an
invalid trade mode or (envelope) an unsupported average type; sizing modes
are not validated at setup.  With no recognized sizing key, sizing produces
no margin — the run fails only when the first entry fires; with several
sizing keys configured, percent-of-balance silently takes precedence. -/
theorem c6_amended :
    (∀ p : EnvParams, envSetup p = .ok () ↔
      (p.average_type ∈ validAverageTypes ∧ p.mode ∈ validModes)) ∧
    (∀ q : SmaParams, smaSetup q = .ok () ↔ q.mode ∈ validModes) ∧
    (∀ (p : EnvParams) (b : ℚ), envSizing p b = none ↔
      (p.position_size_percentage = none ∧ p.position_size_fixed_amount = none)) ∧
    (∀ (q : SmaParams) (b pr sl : ℚ),
      q.position_size_percentage = none → q.position_size_exposure = none →
      q.position_size_fixed_amount = none → smaInitialMargin q b pr sl = none) ∧
    (∀ (p : EnvParams) (b pct amt : ℚ),
      p.position_size_percentage = some pct → p.position_size_fixed_amount = some amt →
      envSizing p b = some (b * round4 (pct / 100 / (p.envelopes.length : ℚ)))) := by
  refine ⟨?_, ?_, ?_, ?_, ?_⟩
  · intro p
    unfold envSetup
    by_cases h1 : p.average_type ∈ validAverageTypes <;>
      by_cases h2 : p.mode ∈ validModes <;> simp [h1, h2]
  · intro q
    unfold smaSetup
    by_cases h2 : q.mode ∈ validModes <;> simp [h2]
  · intro p b
    unfold envSizing
    cases h1 : p.position_size_percentage <;> cases h2 : p.position_size_fixed_amount <;>
      simp
  · intro q b pr sl h1 h2 h3
    unfold smaInitialMargin
    simp only [h1, h2, h3]
  · intro p b pct amt h1 _
    unfold envSizing
    simp only [h1]

/-- C6 witness configuration with no sizing key. -/
def c6Q : SmaParams := { mode := "both" }

/-- C6 witness configuration with two sizing keys configured at once. -/
def c6P2 : EnvParams :=
  { average_type := "SMA"
    mode := "both"
    envelopes := [1 / 10]
    stop_loss_pct := 1 / 10
    position_size_percentage := some 10
    position_size_fixed_amount := some 777 }

/-- Witness for C6 (amended): the no-sizing-key conjunct applied to a
concrete SMA configuration, and the precedence conjunct applied to a
configuration with both sizing keys. -/
theorem c6_witness :
    smaInitialMargin c6Q 1000 100 85 = none ∧
    envSizing c6P2 1000 = some (1000 * round4 (10 / 100 / ((1 : ℚ)))) := by
  constructor
  · exact c6_amended.2.2.2.1 c6Q 1000 100 85 rfl rfl rfl
  · have h := c6_amended.2.2.2.2 c6P2 1000 10 777 rfl rfl
    simpa [c6P2] using h

end CryptoStrategyLab
